import Mathlib

/-!
Verification development for the COLMAP database injection utility
(`data_utils/inject_to_database.py`).

The Python module writes camera intrinsics and image pose priors into a
COLMAP SQLite database whose schema varies across COLMAP versions.  The
shallow embedding below models:

* the float64 array codec (`array_to_blob` / `blob_to_array`), at the level
  of 64-bit IEEE754 bit patterns serialized to little-endian bytes;
* the database state visible to the module (the images table's column
  names, its rows, the optional pose_priors table, the cameras table);
* the connection object with its memoized `_image_prior_spec` field;
* schema resolution (`_get_image_prior_spec`), the writers (`update_image`,
  `update_camera`) and the image-list ingestion driver (`imgTodatabase`).

Machine floats are represented by their bit patterns (naturals below 2^64):
the Python code never performs arithmetic on the pose values, it only
stores, serializes and deserializes them, so the bit-pattern representation
is exact.  SQLite statements are modelled by explicit state transformers;
a ghost `trace` field records which read/write statements a connection
executed and a ghost `poseWrites` field records the completed pose writes.
-/

namespace ColmapInject

/-! ## Little-endian byte serialization (numpy `tobytes` / `frombuffer`) -/

/-- The `n` little-endian base-256 digits of `w` (numpy stores float64
values as 8 such bytes). -/
def natToLE : Nat → Nat → List Nat
  | 0, _ => []
  | n + 1, w => (w % 256) :: natToLE n (w / 256)

/-- Reassemble a little-endian byte list into the natural it encodes. -/
def leToNat : List Nat → Nat
  | [] => 0
  | b :: bs => b + 256 * leToNat bs

/-- `array_to_blob(array)`: `array.tobytes()` — the raw little-endian byte
stream of the float64 elements, no header and no length prefix. -/
def array_to_blob (a : List Nat) : List Nat :=
  (a.map (natToLE 8)).flatten

/-- Split a byte stream into consecutive 8-byte words; the fuel argument
(one unit per produced word) keeps the recursion structural. -/
def blobWordsAux : Nat → List Nat → List Nat
  | 0, _ => []
  | _ + 1, [] => []
  | fuel + 1, b :: bs => leToNat ((b :: bs).take 8) :: blobWordsAux fuel ((b :: bs).drop 8)

/-- Decode a byte stream as consecutive little-endian 64-bit words
(numpy `frombuffer(blob, dtype=np.float64)` at the bit-pattern level). -/
def blobWords (bs : List Nat) : List Nat :=
  blobWordsAux bs.length bs

/-- Resolve a requested numpy shape against an element count: `-1` means
"infer this dimension"; at most one `-1` is allowed; otherwise the product
of the dimensions must equal the element count (numpy `reshape`). -/
def resolveShape (count : Nat) (shape : List Int) : Except String (List Nat) :=
  if shape.any (fun d => d < -1) then
    .error "negative dimensions are not allowed"
  else
    let unknowns := (shape.filter (fun d => d = -1)).length
    let known := ((shape.filter (fun d => d ≠ -1)).map Int.toNat).prod
    if unknowns > 1 then .error "can only specify one unknown dimension"
    else if unknowns = 1 then
      if known ≠ 0 ∧ count % known = 0 then
        .ok (shape.map (fun d => if d = -1 then count / known else d.toNat))
      else .error "cannot reshape array"
    else if known = count then .ok (shape.map Int.toNat)
    else .error "cannot reshape array"

/-- `blob_to_array(blob, dtype, shape)` with `dtype = np.float64`:
`np.frombuffer` demands the byte length be a multiple of the 8-byte element
width, then `reshape(*shape)` demands the shape be compatible with the
element count.  Returns the decoded words plus the resolved dimensions. -/
def blob_to_array (blob : List Nat) (shape : List Int) : Except String (List Nat × List Nat) :=
  if blob.length % 8 ≠ 0 then
    .error "buffer size must be a multiple of element size"
  else
    match resolveShape (blob.length / 8) shape with
    | .error e => .error e
    | .ok dims => .ok (blobWords blob, dims)

/-- Whether an `Except` result is an error. -/
def isErr : Except String (List Nat × List Nat) → Bool
  | .error _ => true
  | .ok _ => false

/-- A dimension list realises a requested numpy shape for a given element
count: its product is the count, it has the same rank, and it agrees with
the shape at every position whose requested dimension is not `-1`.  Decoding
must fail exactly when no dimension list realises the request. -/
def realizesShape (count : Nat) (shape : List Int) (dims : List Nat) : Prop :=
  dims.prod = count ∧ dims.length = shape.length ∧
    ∀ i d, shape.get? i = some d → d ≠ -1 → dims.get? i = some d.toNat

/-! ## IEEE754 binary64 bit patterns -/

/-- Bit pattern of numpy's `np.nan` (the quiet NaN written by
`np.full((3, 3), np.nan)`). -/
def NAN64 : Nat := 0x7FF8000000000000

/-- Whether a 64-bit pattern denotes an IEEE754 binary64 not-a-number:
exponent field all ones and nonzero mantissa. -/
def isNaN64 (w : Nat) : Bool :=
  (w / 2 ^ 52) % 2 ^ 11 == 2047 && w % 2 ^ 52 != 0

/-- Bit pattern of the float64 value 1.0. -/
def f64_one : Nat := 0x3FF0000000000000

/-- Bit pattern of the float64 value 0.1. -/
def f64_tenth : Nat := 0x3FB999999999999A

/-- Bit pattern of the float64 value 0.2. -/
def f64_fifth : Nat := 0x3FC999999999999A

/-- Bit pattern of the float64 value 0.3. -/
def f64_three_tenths : Nat := 0x3FD3333333333333

/-! ## Parsing (Python `int()` / `float()` on whitespace-free tokens) -/

/-- Value of a list of decimal digit characters. -/
def digitsVal (cs : List Char) : Nat :=
  cs.foldl (fun a c => a * 10 + (c.toNat - 48)) 0

/-- A nonempty all-decimal-digit character list. -/
def allDigits (cs : List Char) : Bool :=
  !cs.isEmpty && cs.all (fun c => c.isDigit)

/-- Python `int(token)` modelled on its plain decimal forms: an optional
minus sign followed by decimal digits (the tokens come from `str.split()`,
so they contain no whitespace). -/
def pyInt? (s : String) : Option Int :=
  match s.toList with
  | '-' :: cs => if allDigits cs then some (-(digitsVal cs : Int)) else none
  | cs => if allDigits cs then some ((digitsVal cs : Int)) else none

/-- Number of binary digits of `n` (0 for 0); fuel-based so that the
recursion is structural and kernel-reducible. -/
def bitlenAux : Nat → Nat → Nat
  | 0, _ => 0
  | fuel + 1, n => if n = 0 then 0 else bitlenAux fuel (n / 2) + 1

/-- Number of binary digits of `n` (0 for 0). -/
def bitlen (n : Nat) : Nat := bitlenAux n n

/-- Round `a / b` to the nearest integer, ties to even — the IEEE754
default rounding used by Python's decimal-to-float conversion. -/
def rne (a b : Nat) : Nat :=
  let q := a / b
  let r := a % b
  if 2 * r < b then q
  else if 2 * r > b then q + 1
  else if q % 2 = 0 then q else q + 1

/-- Whether `num / den` is at least `2 ^ e` for a signed exponent `e`. -/
def geTwoPow (num den : Nat) (e : Int) : Bool :=
  if 0 ≤ e then den * 2 ^ e.toNat ≤ num else den ≤ num * 2 ^ (-e).toNat

/-- Round `(num / den) * 2 ^ s` to the nearest integer, ties to even. -/
def scaledRne (num den : Nat) (s : Int) : Nat :=
  if 0 ≤ s then rne (num * 2 ^ s.toNat) den else rne num (den * 2 ^ (-s).toNat)

/-- Sign bit of a binary64 pattern. -/
def signBit (neg : Bool) : Nat := if neg then 2 ^ 63 else 0

/-- IEEE754 binary64 bit pattern of the exact rational `num / den` with the
given sign, rounded to nearest with ties to even; overflow yields the
infinity pattern and tiny values the subnormal patterns. -/
def f64OfRatParts (neg : Bool) (num den : Nat) : Nat :=
  if num = 0 then signBit neg
  else
    let e0 : Int := (bitlen num : Int) - (bitlen den : Int)
    let e1 : Int := if geTwoPow num den e0 then e0 else e0 - 1
    let m0 : Nat := scaledRne num den (52 - e1)
    let m : Nat := if m0 = 2 ^ 53 then 2 ^ 52 else m0
    let e : Int := if m0 = 2 ^ 53 then e1 + 1 else e1
    if e > 1023 then signBit neg + 2047 * 2 ^ 52
    else if e < -1022 then
      let msub := scaledRne num den 1074
      if msub ≥ 2 ^ 52 then signBit neg + 2 ^ 52 else signBit neg + msub
    else signBit neg + (e + 1023).toNat * 2 ^ 52 + (m - 2 ^ 52)

/-- Bit pattern of the float64 nearest to the decimal whose digit string
evaluates to `num` with `fracLen` digits after the point. -/
def f64OfDecimal (neg : Bool) (num fracLen : Nat) : Nat :=
  f64OfRatParts neg num (10 ^ fracLen)

/-- Python `float(token)` modelled on its plain decimal forms: an optional
sign, decimal digits, and an optional fractional part (exponent and
inf/nan spellings are outside the modelled subset; tokens come from
`str.split()`, so they contain no whitespace). -/
def pyFloat? (s : String) : Option Nat :=
  let (neg, cs) :=
    match s.toList with
    | '-' :: rest => (true, rest)
    | '+' :: rest => (false, rest)
    | cs => (false, cs)
  let ip := cs.takeWhile (fun c => c ≠ '.')
  match cs.dropWhile (fun c => c ≠ '.') with
  | [] => if allDigits ip then some (f64OfDecimal neg (digitsVal ip) 0) else none
  | _ :: frac =>
    if ip.all (fun c => c.isDigit) && frac.all (fun c => c.isDigit) &&
        !(ip.isEmpty && frac.isEmpty) && frac.all (fun c => c ≠ '.') then
      some (f64OfDecimal neg (digitsVal (ip ++ frac)) frac.length)
    else none

/-! ## Database state -/

/-- An SQLite storage value. -/
inductive Value where
  | intV : Int → Value
  | floatV : Nat → Value
  | textV : String → Value
  | blobV : List Nat → Value
  | nullV : Value
deriving DecidableEq, Repr

/-- A row of the images table, as the mapping from column name to stored
value; the `image_id` primary key is kept separately as the row's key. -/
abbrev Row := List (String × Value)

/-- A row of the cameras table (key `camera_id` kept separately). -/
structure CameraRow where
  model : Int
  width : Int
  height : Int
  params : List Nat
  prior_focal_length : Int
deriving DecidableEq, Repr

/-- A row of the pose_priors table (key `image_id` kept separately). -/
structure PosePriorRow where
  position : List Nat
  coordinate_system : Int
  position_covariance : List Nat
deriving DecidableEq, Repr

/-- The database file state visible to the module: the cameras table, the
images table (its declared column names, read by `PRAGMA table_info`, plus
its rows) and the optional pose_priors table (`posePriorsTable` is whether
`sqlite_master` lists it). -/
structure DB where
  cameras : List (Int × CameraRow)
  imagesCols : List String
  images : List (Int × Row)
  posePriorsTable : Bool
  posePriors : List (Int × PosePriorRow)
deriving DecidableEq

/-- The resolved pose-prior storage strategy (`_image_prior_spec`): either
the inline-columns layout with the resolved orientation and position column
names, or the separate pose_priors table. -/
inductive PriorSpec where
  | images (q_columns : List String) (t_columns : List String)
  | pose_priors
deriving DecidableEq, Repr

/-- Errors surfaced by the module: the `RuntimeError` raised on an
unrecognized schema (carrying the sorted missing column names that the
Python message interpolates), and the `ValueError`/`IndexError` family
raised while parsing an image-list line. -/
inductive DBError where
  | unexpectedSchema (missing : List String)
  | valueError
deriving DecidableEq, Repr

/-- A statement executed on a connection (ghost trace event). -/
inductive Event where
  | probeImagesSchema
  | probeTableCatalog
  | updateImagesInline (image_id : Int)
  | updateImagesCameraId (image_id : Int)
  | insertPosePrior (image_id : Int)
  | updateCameras (camera_id : Int)
deriving DecidableEq, Repr

/-- The arguments of one completed pose write (ghost record). -/
structure PoseWrite where
  image_id : Int
  qw : Nat
  qx : Nat
  qy : Nat
  qz : Nat
  tx : Nat
  ty : Nat
  tz : Nat
  camera_id : Int
deriving DecidableEq, Repr

/-- A `COLMAPDatabase` connection: the database state, the memoized
`_image_prior_spec` (initialised to `None` by `__init__`), plus the two
ghost logs. -/
structure Conn where
  db : DB
  image_prior_spec : Option PriorSpec
  trace : List Event
  poseWrites : List PoseWrite
deriving DecidableEq

/-- `COLMAPDatabase.connect` followed by `__init__`: a fresh connection
with an empty memo. -/
def connect (db : DB) : Conn :=
  { db := db, image_prior_spec := none, trace := [], poseWrites := [] }

/-! ## Row and table access (SQL SELECT/UPDATE primitives) -/

/-- Value of column `c` in a row. -/
def rowGet? : Row → String → Option Value
  | [], _ => none
  | kv :: rest, c => if kv.1 = c then some kv.2 else rowGet? rest c

/-- Assign value `v` to column `c` of a row (an UPDATE touches only
existing columns). -/
def rowSet (r : Row) (c : String) (v : Value) : Row :=
  r.map (fun kv => if kv.1 = c then (kv.1, v) else kv)

/-- Apply a list of column assignments to a row, left to right. -/
def rowSets (r : Row) (assignments : List (String × Value)) : Row :=
  assignments.foldl (fun acc p => rowSet acc p.1 p.2) r

/-- Row of a keyed table at a given key. -/
def getRow? : List (Int × Row) → Int → Option Row
  | [], _ => none
  | kr :: rest, i => if kr.1 = i then some kr.2 else getRow? rest i

/-- Value of one cell of a keyed table. -/
def cellGet? (rows : List (Int × Row)) (i : Int) (c : String) : Option Value :=
  (getRow? rows i).bind (fun r => rowGet? r c)

/-- An UPDATE with a WHERE clause on the key: every row whose key matches
receives the assignments, every other row is untouched. -/
def updateWhere (rows : List (Int × Row)) (i : Int) (assignments : List (String × Value)) :
    List (Int × Row) :=
  rows.map (fun kr => if kr.1 = i then (kr.1, rowSets kr.2 assignments) else kr)

/-- Pose-prior row of the pose_priors table at a given key. -/
def getPrior? : List (Int × PosePriorRow) → Int → Option PosePriorRow
  | [], _ => none
  | kr :: rest, i => if kr.1 = i then some kr.2 else getPrior? rest i

/-- `INSERT OR REPLACE INTO pose_priors`: any existing row with the key is
replaced, otherwise the row is inserted. -/
def insertOrReplacePrior (rows : List (Int × PosePriorRow)) (i : Int) (r : PosePriorRow) :
    List (Int × PosePriorRow) :=
  rows.filter (fun kr => kr.1 ≠ i) ++ [(i, r)]

/-! ## Schema resolution (`_get_image_prior_spec`) -/

/-- The synonym groups for the four orientation-component roles
(`_PRIOR_Q_COLUMN_CANDIDATES`). -/
def PRIOR_Q_COLUMN_CANDIDATES : List (List String) :=
  [["prior_qw", "qvec_prior_w"],
   ["prior_qx", "qvec_prior_x"],
   ["prior_qy", "qvec_prior_y"],
   ["prior_qz", "qvec_prior_z"]]

/-- The synonym groups for the three position-component roles
(`_PRIOR_T_COLUMN_CANDIDATES`). -/
def PRIOR_T_COLUMN_CANDIDATES : List (List String) :=
  [["prior_tx", "tvec_prior_x"],
   ["prior_ty", "tvec_prior_y"],
   ["prior_tz", "tvec_prior_z"]]

/-- `_select_candidates`: for each candidate group, the first candidate
present among the table's column names, skipping groups with no candidate
present. -/
def select_candidates (column_names : List String) (candidate_groups : List (List String)) :
    List String :=
  candidate_groups.filterMap (fun group => group.find? (fun c => column_names.contains c))

/-- All fourteen known prior column names (the union of the candidate
groups; the groups are pairwise disjoint, so the flattened list is the
set `known_columns` of the Python code). -/
def known_prior_columns : List String :=
  (PRIOR_Q_COLUMN_CANDIDATES ++ PRIOR_T_COLUMN_CANDIDATES).flatten

/-- Lexicographic code-point comparison of character lists (how Python
compares the strings while sorting them). -/
def charsLe : List Char → List Char → Bool
  | [], _ => true
  | _ :: _, [] => false
  | x :: xs, y :: ys =>
    if x.toNat < y.toNat then true
    else if y.toNat < x.toNat then false
    else charsLe xs ys

/-- Lexicographic code-point comparison of strings. -/
def strLe (a b : String) : Bool := charsLe a.toList b.toList

/-- Insert a string into a lexicographically sorted list. -/
def insertSorted (x : String) : List String → List String
  | [] => [x]
  | y :: ys => if strLe x y then x :: y :: ys else y :: insertSorted x ys

/-- Insertion sort by the lexicographic order on strings (Python's
`sorted` on the set difference). -/
def sortStrings : List String → List String
  | [] => []
  | x :: xs => insertSorted x (sortStrings xs)

/-- `sorted(known_columns - column_names)`: the known prior column names
absent from the images table, in sorted order. -/
def missing_prior_columns (column_names : List String) : List String :=
  sortStrings (known_prior_columns.filter (fun c => !column_names.contains c))

/-- `_get_image_prior_spec`: memoized; on a cache miss it reads the images
table's column metadata (`PRAGMA table_info(images)`), tries to resolve
every orientation and position role to an inline column, otherwise checks
`sqlite_master` for the pose_priors table, otherwise raises `RuntimeError`
naming the missing columns.  Only reads are performed, and the result is
cached only on success. -/
def getImagePriorSpec (conn : Conn) : Except DBError PriorSpec × Conn :=
  match conn.image_prior_spec with
  | some s => (.ok s, conn)
  | none =>
    let column_names := conn.db.imagesCols
    let c1 : Conn := { conn with trace := conn.trace ++ [.probeImagesSchema] }
    let prior_q_columns := select_candidates column_names PRIOR_Q_COLUMN_CANDIDATES
    let prior_t_columns := select_candidates column_names PRIOR_T_COLUMN_CANDIDATES
    if prior_q_columns.length = 4 ∧ prior_t_columns.length = 3 then
      let s := PriorSpec.images prior_q_columns prior_t_columns
      (.ok s, { c1 with image_prior_spec := some s })
    else
      let c2 : Conn := { c1 with trace := c1.trace ++ [.probeTableCatalog] }
      if conn.db.posePriorsTable then
        (.ok .pose_priors, { c2 with image_prior_spec := some .pose_priors })
      else
        (.error (.unexpectedSchema (missing_prior_columns column_names)), c2)

/-! ## Writers (`update_camera`, `update_image`) -/

/-- `update_camera`: a single UPDATE of the cameras row keyed by
`camera_id`, storing the encoded parameter vector and forcing
`prior_focal_length` to SQLite true (1).  An absent key updates zero rows.
(The Python method returns `cursor.lastrowid`, which carries no information
for an UPDATE; the model returns unit.) -/
def update_camera (conn : Conn) (model width height : Int) (params : List Nat)
    (camera_id : Int) : Except DBError Unit × Conn :=
  let blob := array_to_blob params
  let cameras := conn.db.cameras.map (fun kr =>
    if kr.1 = camera_id then
      (kr.1, { model := model, width := width, height := height,
               params := blob, prior_focal_length := 1 : CameraRow })
    else kr)
  (.ok (), { conn with
    db := { conn.db with cameras := cameras },
    trace := conn.trace ++ [.updateCameras camera_id] })

/-- Inline-columns branch of `update_image`: one UPDATE statement setting
the seven resolved columns positionally to `(QW,QX,QY,QZ,TX,TY,TZ)` plus
`camera_id`, keyed by `image_id`. -/
def apply_inline_write (c : Conn) (q_columns t_columns : List String) (IMAGE_ID : Int)
    (QW QX QY QZ TX TY TZ : Nat) (CAMERA_ID : Int) : Conn :=
  let assignments :=
    ((q_columns ++ t_columns).zip [QW, QX, QY, QZ, TX, TY, TZ]).map
      (fun p => (p.1, Value.floatV p.2)) ++ [("camera_id", Value.intV CAMERA_ID)]
  { c with
    db := { c.db with images := updateWhere c.db.images IMAGE_ID assignments },
    trace := c.trace ++ [.updateImagesInline IMAGE_ID],
    poseWrites := c.poseWrites ++ [⟨IMAGE_ID, QW, QX, QY, QZ, TX, TY, TZ, CAMERA_ID⟩] }

/-- Separate-table branch of `update_image`: an UPDATE of the image row's
`camera_id` only, then an INSERT OR REPLACE of the pose_priors row with the
encoded position, coordinate system -1 and a 3x3 all-NaN covariance; the
quaternion is not stored. -/
def apply_separate_write (c : Conn) (IMAGE_ID : Int) (QW QX QY QZ TX TY TZ : Nat)
    (CAMERA_ID : Int) : Conn :=
  let images := updateWhere c.db.images IMAGE_ID [("camera_id", Value.intV CAMERA_ID)]
  let position := array_to_blob [TX, TY, TZ]
  let covariance := array_to_blob (List.replicate 9 NAN64)
  let posePriors := insertOrReplacePrior c.db.posePriors IMAGE_ID
    ⟨position, -1, covariance⟩
  { c with
    db := { c.db with images := images, posePriors := posePriors },
    trace := c.trace ++ [.updateImagesCameraId IMAGE_ID, .insertPosePrior IMAGE_ID],
    poseWrites := c.poseWrites ++ [⟨IMAGE_ID, QW, QX, QY, QZ, TX, TY, TZ, CAMERA_ID⟩] }

/-- `update_image`: resolve (or recall) the storage strategy, then execute
whichever branch it selects.  (The Python method returns
`cursor.lastrowid`; the model returns unit.) -/
def update_image (conn : Conn) (IMAGE_ID : Int) (QW QX QY QZ TX TY TZ : Nat)
    (CAMERA_ID : Int) : Except DBError Unit × Conn :=
  match getImagePriorSpec conn with
  | (.error e, c) => (.error e, c)
  | (.ok (.images q_columns t_columns), c) =>
    (.ok (), apply_inline_write c q_columns t_columns IMAGE_ID QW QX QY QZ TX TY TZ CAMERA_ID)
  | (.ok .pose_priors, c) =>
    (.ok (), apply_separate_write c IMAGE_ID QW QX QY QZ TX TY TZ CAMERA_ID)

/-- `update_image` on the arguments of a recorded pose write. -/
def applyPoseWrite (c : Conn) (w : PoseWrite) : Except DBError Unit × Conn :=
  update_image c w.image_id w.qw w.qx w.qy w.qz w.tx w.ty w.tz w.camera_id

/-- Run a sequence of pose writes on a connection, keeping the state of
each (possibly failing) call. -/
def runWrites (c : Conn) (ws : List PoseWrite) : Conn :=
  ws.foldl (fun acc w => (applyPoseWrite acc w).2) c

/-! ## Image-list ingestion (`imgTodatabase`) -/

/-- Evaluate `parse(image_metas[i])`: `None` stands for the
`IndexError`/`ValueError` the Python expression raises. -/
def parseField (image_metas : List String) (i : Nat) (p : String → Option α) : Option α :=
  (image_metas.get? i).bind p

/-- Parse one split image-list line as
`IMAGE_ID QW QX QY QZ TX TY TZ CAMERA_ID`, with indexing and parsing
interleaved the way the Python call evaluates
`int(image_metas[0]), float(image_metas[1]), ...`; tokens past the ninth
(the name field) are never inspected. -/
def parseImageLine (image_metas : List String) : Option PoseWrite :=
  (parseField image_metas 0 pyInt?).bind (fun iid =>
  (parseField image_metas 1 pyFloat?).bind (fun qw =>
  (parseField image_metas 2 pyFloat?).bind (fun qx =>
  (parseField image_metas 3 pyFloat?).bind (fun qy =>
  (parseField image_metas 4 pyFloat?).bind (fun qz =>
  (parseField image_metas 5 pyFloat?).bind (fun tx =>
  (parseField image_metas 6 pyFloat?).bind (fun ty =>
  (parseField image_metas 7 pyFloat?).bind (fun tz =>
  (parseField image_metas 8 pyInt?).map (fun cid =>
  ⟨iid, qw, qx, qy, qz, tx, ty, tz, cid⟩)))))))))

/-- The loop body of `imgTodatabase` over the split lines: a line with no
tokens is skipped; otherwise the first nine fields are parsed (a
`ValueError`/`IndexError` aborts the pass) and `update_image` is called. -/
def imgTodatabase_go : List (List String) → Conn → Except DBError Unit × Conn
  | [], c => (.ok (), c)
  | image_metas :: rest, c =>
    if image_metas.length > 0 then
      match parseImageLine image_metas with
      | none => (.error .valueError, c)
      | some w =>
        match applyPoseWrite c w with
        | (.ok _, c1) => imgTodatabase_go rest c1
        | (.error e, c1) => (.error e, c1)
    else imgTodatabase_go rest c

/-- `imgTodatabase`: open the database, then run the line loop over the
image-list file (given here with each line already split into whitespace
tokens, as `str.split()` produces).  The final `commit`/`close` are
identity on the modelled state. -/
def imgTodatabase (lines : List (List String)) (db : DB) : Except DBError Unit × Conn :=
  imgTodatabase_go lines (connect db)

/-- Whether a write result is an error. -/
def isErrW : Except DBError Unit → Bool
  | .error _ => true
  | .ok _ => false

/-! ## Example databases (used by the witnesses) -/

/-- Declared columns of a modern-layout images table (the repository
test's `_create_modern_images_table`). -/
def modernImagesCols : List String :=
  ["image_id", "name", "camera_id", "qvec_prior_w", "qvec_prior_x", "qvec_prior_y",
   "qvec_prior_z", "tvec_prior_x", "tvec_prior_y", "tvec_prior_z"]

/-- The image row the repository test inserts: zero priors, camera 1. -/
def modernRow1 : Row :=
  [("name", .textV "test.png"), ("camera_id", .intV 1),
   ("qvec_prior_w", .floatV 0), ("qvec_prior_x", .floatV 0), ("qvec_prior_y", .floatV 0),
   ("qvec_prior_z", .floatV 0), ("tvec_prior_x", .floatV 0), ("tvec_prior_y", .floatV 0),
   ("tvec_prior_z", .floatV 0)]

/-- A database in the modern inline-columns layout. -/
def dbModern : DB :=
  { cameras := [], imagesCols := modernImagesCols, images := [(1, modernRow1)],
    posePriorsTable := false, posePriors := [] }

/-- Declared columns of an images table without inline prior columns (the
repository test's `_create_pose_prior_schema`). -/
def bareImagesCols : List String := ["image_id", "name", "camera_id"]

/-- The bare image row of the separate-table test. -/
def bareRow1 : Row := [("name", .textV "test.png"), ("camera_id", .intV 1)]

/-- A database in the separate pose_priors-table layout. -/
def dbSeparate : DB :=
  { cameras := [], imagesCols := bareImagesCols, images := [(1, bareRow1)],
    posePriorsTable := true, posePriors := [] }

/-- A database with neither inline prior columns nor a pose_priors
table. -/
def dbBad : DB :=
  { cameras := [], imagesCols := bareImagesCols, images := [(1, bareRow1)],
    posePriorsTable := false, posePriors := [] }

/-- A database with one camera row, used for the missing-id write. -/
def dbCams : DB :=
  { cameras := [(1, ⟨0, 640, 480, [], 0⟩)], imagesCols := modernImagesCols,
    images := [(1, modernRow1)], posePriorsTable := false, posePriors := [] }

/-! # Theorems -/

/-! ## Codec lemmas -/

theorem natToLE_length (n w : Nat) : (natToLE n w).length = n := by
  induction n generalizing w with
  | zero => rfl
  | succ n ih => simp [natToLE, ih]

theorem leToNat_natToLE (n w : Nat) : leToNat (natToLE n w) = w % 256 ^ n := by
  induction n generalizing w with
  | zero => simp [natToLE, leToNat, Nat.mod_one]
  | succ n ih =>
    have h : 256 ^ (n + 1) = 256 * 256 ^ n := by ring
    rw [natToLE, leToNat, ih, h, Nat.mod_mul]

theorem array_to_blob_length (a : List Nat) : (array_to_blob a).length = 8 * a.length := by
  induction a with
  | nil => rfl
  | cons w rest ih =>
    simp only [array_to_blob, List.map_cons, List.flatten_cons, List.length_append,
      natToLE_length, List.length_cons]
    simp only [array_to_blob] at ih
    omega

theorem blobWordsAux_succ (fuel : Nat) (bs : List Nat) (h : bs ≠ []) :
    blobWordsAux (fuel + 1) bs = leToNat (bs.take 8) :: blobWordsAux fuel (bs.drop 8) := by
  cases bs with
  | nil => exact absurd rfl h
  | cons b t => rfl

theorem blobWordsAux_nil (fuel : Nat) : blobWordsAux fuel [] = [] := by
  cases fuel <;> rfl

theorem blobWordsAux_array_to_blob (data : List Nat) (fuel : Nat)
    (hfuel : data.length ≤ fuel) (hb : ∀ w ∈ data, w < 2 ^ 64) :
    blobWordsAux fuel (array_to_blob data) = data := by
  induction data generalizing fuel with
  | nil => simpa [array_to_blob] using blobWordsAux_nil fuel
  | cons w rest ih =>
    obtain ⟨f, rfl⟩ : ∃ f, fuel = f + 1 := ⟨fuel - 1, by simp at hfuel; omega⟩
    have hblob : array_to_blob (w :: rest) = natToLE 8 w ++ array_to_blob rest := by
      simp [array_to_blob]
    have hne : array_to_blob (w :: rest) ≠ [] := by
      intro hcon
      have := array_to_blob_length (w :: rest)
      rw [hcon] at this
      simp at this
    rw [blobWordsAux_succ f _ hne, hblob,
      List.take_left' (natToLE_length 8 w), List.drop_left' (natToLE_length 8 w),
      leToNat_natToLE]
    have hw : w % 256 ^ 8 = w := Nat.mod_eq_of_lt (by
      have : (256 : Nat) ^ 8 = 2 ^ 64 := by norm_num
      rw [this]; exact hb w (by simp))
    rw [hw, ih f (by simp at hfuel; omega) (fun x hx => hb x (by simp [hx]))]

theorem blobWords_array_to_blob (data : List Nat) (hb : ∀ w ∈ data, w < 2 ^ 64) :
    blobWords (array_to_blob data) = data := by
  have hlen : (array_to_blob data).length = 8 * data.length := array_to_blob_length data
  exact blobWordsAux_array_to_blob data _ (by omega) hb

/-- Dimension lists written with nonnegative literals contain no `-1` and
no dimension below `-1`. -/
theorem ofNat_shape_clean (dims : List Nat) :
    ((dims.map (Int.ofNat)).filter (fun d => d = -1)) = [] ∧
      ((dims.map (Int.ofNat)).filter (fun d => d ≠ -1)) = dims.map (Int.ofNat) ∧
      (dims.map (Int.ofNat)).any (fun d => d < -1) = false := by
  refine ⟨?_, ?_, ?_⟩
  · rw [List.filter_eq_nil_iff]
    intro a ha
    obtain ⟨n, _, rfl⟩ := List.mem_map.mp ha
    simp
  · rw [List.filter_eq_self]
    intro a ha
    obtain ⟨n, _, rfl⟩ := List.mem_map.mp ha
    simp
  · rw [List.any_eq_false]
    intro a ha
    obtain ⟨n, _, rfl⟩ := List.mem_map.mp ha
    simp; omega

theorem resolveShape_ofNat (count : Nat) (dims : List Nat) (hc : dims.prod = count) :
    resolveShape count (dims.map (Int.ofNat)) = .ok dims := by
  obtain ⟨h1, h2, h3⟩ := ofNat_shape_clean dims
  have hmap : (dims.map (Int.ofNat)).map Int.toNat = dims := by
    rw [List.map_map]
    exact List.map_id'' (fun n => Int.toNat_ofNat n) dims
  rw [resolveShape, h3]
  simp only [if_false, Bool.false_eq_true]
  rw [h1, h2, hmap]
  simp [hc]

theorem prod_map_no_unknown (shape : List Int) (k : Nat)
    (h0 : shape.filter (fun d => d = -1) = []) :
    (shape.map (fun d => if d = -1 then k else d.toNat)).prod
      = ((shape.filter (fun d => d ≠ -1)).map Int.toNat).prod := by
  induction shape with
  | nil => rfl
  | cons d rest ih =>
    have hd : ¬(d = -1) := by
      intro hcon
      rw [List.filter_cons_of_pos (by simp [hcon])] at h0
      exact List.cons_ne_nil _ _ h0
    rw [List.filter_cons_of_neg (by simp [hd])] at h0
    rw [List.map_cons, List.prod_cons, if_neg hd, List.filter_cons_of_pos (by simp [hd]),
      List.map_cons, List.prod_cons, ih h0]

theorem prod_map_single_unknown (shape : List Int) (k : Nat)
    (h1 : (shape.filter (fun d => d = -1)).length = 1) :
    (shape.map (fun d => if d = -1 then k else d.toNat)).prod
      = k * ((shape.filter (fun d => d ≠ -1)).map Int.toNat).prod := by
  induction shape with
  | nil => simp at h1
  | cons d rest ih =>
    by_cases hd : d = -1
    · have h0 : rest.filter (fun d => d = -1) = [] := by
        rw [List.filter_cons_of_pos (by simp [hd])] at h1
        simp only [List.length_cons, Nat.add_left_eq_self] at h1
        exact List.length_eq_zero.mp h1
      rw [List.map_cons, List.prod_cons, if_pos hd, List.filter_cons_of_neg (by simp [hd]),
        prod_map_no_unknown rest k h0]
    · rw [List.filter_cons_of_neg (by simp [hd])] at h1
      rw [List.map_cons, List.prod_cons, if_neg hd, List.filter_cons_of_pos (by simp [hd]),
        List.map_cons, List.prod_cons, ih h1]
      ring

/-- Whatever dimension list `resolveShape` accepts does realise the
requested shape: decoding never silently drops or truncates elements. -/
theorem resolveShape_sound (count : Nat) (shape : List Int) (dims : List Nat)
    (h : resolveShape count shape = .ok dims) : realizesShape count shape dims := by
  rw [resolveShape] at h
  by_cases hneg : shape.any (fun d => d < -1) = true
  · rw [if_pos hneg] at h
    exact absurd h (by simp)
  rw [if_neg hneg] at h
  simp only at h
  by_cases hu2 : (shape.filter (fun d => d = -1)).length > 1
  · rw [if_pos hu2] at h
    exact absurd h (by simp)
  rw [if_neg hu2] at h
  by_cases hu1 : (shape.filter (fun d => d = -1)).length = 1
  · rw [if_pos hu1] at h
    by_cases hk : ((shape.filter (fun d => d ≠ -1)).map Int.toNat).prod ≠ 0 ∧
        count % ((shape.filter (fun d => d ≠ -1)).map Int.toNat).prod = 0
    · rw [if_pos hk] at h
      obtain ⟨hdims⟩ := h
      refine ⟨?_, ?_, ?_⟩
      · rw [prod_map_single_unknown shape _ hu1,
          Nat.div_mul_cancel (Nat.dvd_of_mod_eq_zero hk.2)]
      · rw [List.length_map]
      · intro i d hget hne
        rw [List.get?_map, hget]
        simp [if_neg hne]
    · rw [if_neg hk] at h
      exact absurd h (by simp)
  · rw [if_neg hu1] at h
    by_cases hkc : ((shape.filter (fun d => d ≠ -1)).map Int.toNat).prod = count
    · rw [if_pos hkc] at h
      obtain ⟨hdims⟩ := h
      have h0 : shape.filter (fun d => d = -1) = [] := by
        have : (shape.filter (fun d => d = -1)).length = 0 := by omega
        exact List.length_eq_zero.mp this
      have hself : shape.filter (fun d => d ≠ -1) = shape := by
        rw [List.filter_eq_self]
        intro a ha
        have := List.filter_eq_nil_iff.mp h0 a ha
        simpa using this
      refine ⟨?_, ?_, ?_⟩
      · rw [← hkc, hself]
      · rw [List.length_map]
      · intro i d hget hne
        rw [List.get?_map, hget]
        rfl
    · rw [if_neg hkc] at h
      exact absurd h (by simp)

/-! ## C6 and C7: the array codec -/

/-- Round trip of the codec, shared form: decoding an encoded array at the
array's own shape recovers it. -/
theorem codec_roundtrip_aux (dims data : List Nat)
    (hlen : data.length = dims.prod) (hb : ∀ w ∈ data, w < 2 ^ 64) :
    blob_to_array (array_to_blob data) (dims.map (Int.ofNat)) = .ok (data, dims) := by
  have h8 : (array_to_blob data).length = 8 * data.length := array_to_blob_length data
  have hmod : ¬((array_to_blob data).length % 8 ≠ 0) := by rw [h8]; omega
  rw [blob_to_array, if_neg hmod]
  have hcount : (array_to_blob data).length / 8 = data.length := by rw [h8]; omega
  rw [hcount, resolveShape_ofNat data.length dims hlen.symm,
    blobWords_array_to_blob data hb]

/-- C6: for every float64 array (elements given as their 64-bit patterns,
arranged with any dimension list), decoding the encoding at the array's own
shape reproduces the array exactly, bit for bit. -/
theorem array_codec_roundtrip (dims data : List Nat)
    (hlen : data.length = dims.prod) (hb : ∀ w ∈ data, w < 2 ^ 64) :
    blob_to_array (array_to_blob data) (dims.map (Int.ofNat)) = .ok (data, dims) :=
  codec_roundtrip_aux dims data hlen hb

/-- Witness for C6 at a concrete three-element array. -/
theorem array_codec_roundtrip_witness :
    blob_to_array (array_to_blob [42, 2 ^ 64 - 1, 4607182418800017408]) ([3].map (Int.ofNat))
      = .ok ([42, 2 ^ 64 - 1, 4607182418800017408], [3]) :=
  array_codec_roundtrip [3] [42, 2 ^ 64 - 1, 4607182418800017408] (by decide) (by decide)

/-- C7: a byte payload whose length is not a multiple of the 8-byte element
width, or which no dimension list can fit to the requested shape, makes
`blob_to_array` fail with a decoding error instead of returning a silently
truncated array. -/
theorem blob_to_array_rejects_malformed (blob : List Nat) (shape : List Int)
    (h : blob.length % 8 ≠ 0 ∨ ¬∃ dims, realizesShape (blob.length / 8) shape dims) :
    isErr (blob_to_array blob shape) = true := by
  rcases h with h | h
  · rw [blob_to_array, if_pos h]; rfl
  · by_cases hm : blob.length % 8 ≠ 0
    · rw [blob_to_array, if_pos hm]; rfl
    · rw [blob_to_array, if_neg hm]
      cases hr : resolveShape (blob.length / 8) shape with
      | error e => rfl
      | ok dims => exact absurd ⟨dims, resolveShape_sound _ _ _ hr⟩ h

/-- Witness for C7 at a three-byte payload. -/
theorem blob_to_array_rejects_malformed_witness :
    isErr (blob_to_array [0, 1, 2] [-1]) = true :=
  blob_to_array_rejects_malformed [0, 1, 2] [-1] (Or.inl (by decide))

/-! ## Row and table lemmas -/

theorem rowGet?_cons (kv : String × Value) (rest : Row) (c : String) :
    rowGet? (kv :: rest) c = if kv.1 = c then some kv.2 else rowGet? rest c := rfl

theorem rowSet_cons (kv : String × Value) (rest : Row) (c : String) (v : Value) :
    rowSet (kv :: rest) c v = (if kv.1 = c then (kv.1, v) else kv) :: rowSet rest c v := by
  simp only [rowSet, List.map_cons]

theorem rowGet?_rowSet_self (r : Row) (c : String) (v : Value)
    (hs : (rowGet? r c).isSome) : rowGet? (rowSet r c v) c = some v := by
  induction r with
  | nil => simp [rowGet?] at hs
  | cons kv rest ih =>
    rw [rowSet_cons]
    by_cases hk : kv.1 = c
    · rw [if_pos hk, rowGet?_cons]
      simp [hk]
    · rw [rowGet?_cons, if_neg hk] at hs
      rw [if_neg hk, rowGet?_cons, if_neg hk]
      exact ih hs

theorem rowGet?_rowSet_ne (r : Row) (c c' : String) (v : Value) (h : c ≠ c') :
    rowGet? (rowSet r c' v) c = rowGet? r c := by
  induction r with
  | nil => rfl
  | cons kv rest ih =>
    rw [rowSet_cons]
    by_cases hk : kv.1 = c'
    · have hkc : kv.1 ≠ c := fun hcon => h (hcon.symm.trans hk)
      rw [if_pos hk, rowGet?_cons, rowGet?_cons]
      simp only [if_neg hkc]
      exact ih
    · rw [if_neg hk, rowGet?_cons, rowGet?_cons]
      by_cases hkc : kv.1 = c
      · rw [if_pos hkc, if_pos hkc]
      · rw [if_neg hkc, if_neg hkc]
        exact ih

theorem rowGet?_rowSet_isSome (r : Row) (c c' : String) (v : Value) :
    (rowGet? (rowSet r c' v) c).isSome = (rowGet? r c).isSome := by
  by_cases h : c = c'
  · subst h
    induction r with
    | nil => rfl
    | cons kv rest ih =>
      rw [rowSet_cons]
      by_cases hk : kv.1 = c
      · rw [if_pos hk, rowGet?_cons, rowGet?_cons]
        simp [hk]
      · rw [if_neg hk, rowGet?_cons, rowGet?_cons, if_neg hk, if_neg hk]
        exact ih
  · rw [rowGet?_rowSet_ne r c c' v h]

theorem rowGet?_rowSets_notmem (r : Row) (as : List (String × Value)) (c : String)
    (hc : ∀ p ∈ as, p.1 ≠ c) : rowGet? (rowSets r as) c = rowGet? r c := by
  induction as generalizing r with
  | nil => rfl
  | cons p rest ih =>
    have hstep : rowSets r (p :: rest) = rowSets (rowSet r p.1 p.2) rest := rfl
    rw [hstep, ih _ (fun q hq => hc q (List.mem_cons_of_mem p hq))]
    exact rowGet?_rowSet_ne r c p.1 p.2 (Ne.symm (hc p (List.mem_cons_self p rest)))

theorem rowGet?_rowSets_mem (r : Row) (as : List (String × Value)) (c : String) (v : Value)
    (hnd : (as.map Prod.fst).Nodup) (hmem : (c, v) ∈ as) (hs : (rowGet? r c).isSome) :
    rowGet? (rowSets r as) c = some v := by
  induction as generalizing r with
  | nil => simp at hmem
  | cons p rest ih =>
    have hstep : rowSets r (p :: rest) = rowSets (rowSet r p.1 p.2) rest := rfl
    rw [hstep]
    have hnd' : (p.1 :: rest.map Prod.fst).Nodup := by simpa using hnd
    rcases List.mem_cons.mp hmem with heq | hmem'
    · have hkc : ∀ q ∈ rest, q.1 ≠ c := by
        intro q hq hcon
        have hp : p.1 ∉ rest.map Prod.fst := (List.nodup_cons.mp hnd').1
        have hcmem : c ∈ rest.map Prod.fst := List.mem_map.mpr ⟨q, hq, hcon⟩
        rw [← heq] at hp
        exact hp hcmem
      rw [rowGet?_rowSets_notmem _ _ _ hkc, ← heq]
      exact rowGet?_rowSet_self r c v hs
    · have hkey : c ∈ rest.map Prod.fst := List.mem_map.mpr ⟨(c, v), hmem', rfl⟩
      have hne : p.1 ≠ c := by
        intro hcon
        exact (List.nodup_cons.mp hnd').1 (hcon ▸ hkey)
      have hs' : (rowGet? (rowSet r p.1 p.2) c).isSome := by
        rw [rowGet?_rowSet_ne r c p.1 p.2 (Ne.symm hne)]
        exact hs
      exact ih (rowSet r p.1 p.2) (List.nodup_cons.mp hnd').2 hmem' hs'

theorem getRow?_cons (kr : Int × Row) (rest : List (Int × Row)) (j : Int) :
    getRow? (kr :: rest) j = if kr.1 = j then some kr.2 else getRow? rest j := rfl

theorem updateWhere_cons (kr : Int × Row) (rest : List (Int × Row)) (i : Int)
    (as : List (String × Value)) :
    updateWhere (kr :: rest) i as
      = (if kr.1 = i then (kr.1, rowSets kr.2 as) else kr) :: updateWhere rest i as := by
  simp only [updateWhere, List.map_cons]

theorem getRow?_updateWhere_ne (rows : List (Int × Row)) (i j : Int)
    (as : List (String × Value)) (h : j ≠ i) :
    getRow? (updateWhere rows i as) j = getRow? rows j := by
  induction rows with
  | nil => rfl
  | cons kr rest ih =>
    rw [updateWhere_cons]
    by_cases hk : kr.1 = i
    · have hkj : kr.1 ≠ j := by rw [hk]; exact fun hc => h hc.symm
      rw [if_pos hk, getRow?_cons, getRow?_cons]
      simp only [if_neg hkj]
      exact ih
    · rw [if_neg hk, getRow?_cons, getRow?_cons]
      by_cases hkj : kr.1 = j
      · rw [if_pos hkj, if_pos hkj]
      · rw [if_neg hkj, if_neg hkj]
        exact ih

theorem getRow?_updateWhere_eq (rows : List (Int × Row)) (i : Int)
    (as : List (String × Value)) (r : Row) (h : getRow? rows i = some r) :
    getRow? (updateWhere rows i as) i = some (rowSets r as) := by
  induction rows with
  | nil => simp [getRow?] at h
  | cons kr rest ih =>
    rw [updateWhere_cons]
    by_cases hk : kr.1 = i
    · rw [getRow?_cons, if_pos hk] at h
      obtain ⟨hr⟩ := h
      rw [if_pos hk, getRow?_cons]
      simp [hk]
    · rw [getRow?_cons, if_neg hk] at h
      rw [if_neg hk, getRow?_cons, if_neg hk]
      exact ih h

theorem updateWhere_not_found (rows : List (Int × Row)) (i : Int)
    (as : List (String × Value)) (h : getRow? rows i = none) :
    updateWhere rows i as = rows := by
  induction rows with
  | nil => rfl
  | cons kr rest ih =>
    rw [updateWhere_cons]
    by_cases hk : kr.1 = i
    · rw [getRow?_cons, if_pos hk] at h
      exact absurd h (by simp)
    · rw [getRow?_cons, if_neg hk] at h
      rw [if_neg hk, ih h]

theorem getPrior?_cons (kr : Int × PosePriorRow) (rest : List (Int × PosePriorRow)) (j : Int) :
    getPrior? (kr :: rest) j = if kr.1 = j then some kr.2 else getPrior? rest j := rfl

theorem insertOrReplacePrior_cons (kr : Int × PosePriorRow) (rest : List (Int × PosePriorRow))
    (i : Int) (r : PosePriorRow) :
    insertOrReplacePrior (kr :: rest) i r
      = if kr.1 = i then insertOrReplacePrior rest i r
        else kr :: insertOrReplacePrior rest i r := by
  simp only [insertOrReplacePrior, List.filter_cons]
  by_cases hk : kr.1 = i
  · rw [if_pos hk]
    simp [hk]
  · rw [if_neg hk]
    simp [hk]

theorem getPrior?_insertOrReplacePrior_self (rows : List (Int × PosePriorRow)) (i : Int)
    (r : PosePriorRow) : getPrior? (insertOrReplacePrior rows i r) i = some r := by
  induction rows with
  | nil => simp [insertOrReplacePrior, getPrior?]
  | cons kr rest ih =>
    rw [insertOrReplacePrior_cons]
    by_cases hk : kr.1 = i
    · rw [if_pos hk]
      exact ih
    · rw [if_neg hk, getPrior?_cons, if_neg hk]
      exact ih

theorem getPrior?_insertOrReplacePrior_ne (rows : List (Int × PosePriorRow)) (i j : Int)
    (r : PosePriorRow) (h : j ≠ i) :
    getPrior? (insertOrReplacePrior rows i r) j = getPrior? rows j := by
  induction rows with
  | nil =>
    simp only [insertOrReplacePrior, List.filter_nil, List.nil_append, getPrior?]
    rw [if_neg (fun hc => h hc.symm)]
  | cons kr rest ih =>
    rw [insertOrReplacePrior_cons]
    by_cases hk : kr.1 = i
    · have hkj : kr.1 ≠ j := by rw [hk]; exact fun hc => h hc.symm
      rw [if_pos hk, getPrior?_cons, if_neg hkj]
      exact ih
    · rw [if_neg hk, getPrior?_cons, getPrior?_cons]
      by_cases hkj : kr.1 = j
      · rw [if_pos hkj, if_pos hkj]
      · rw [if_neg hkj, if_neg hkj]
        exact ih

/-! ## Schema resolution equations -/

theorem gips_cached (c : Conn) (s : PriorSpec) (h : c.image_prior_spec = some s) :
    getImagePriorSpec c = (.ok s, c) := by
  unfold getImagePriorSpec
  rw [h]

theorem gips_inline (c : Conn) (hc : c.image_prior_spec = none)
    (h : (select_candidates c.db.imagesCols PRIOR_Q_COLUMN_CANDIDATES).length = 4 ∧
         (select_candidates c.db.imagesCols PRIOR_T_COLUMN_CANDIDATES).length = 3) :
    getImagePriorSpec c =
      (.ok (.images (select_candidates c.db.imagesCols PRIOR_Q_COLUMN_CANDIDATES)
            (select_candidates c.db.imagesCols PRIOR_T_COLUMN_CANDIDATES)),
       { c with trace := c.trace ++ [.probeImagesSchema],
                image_prior_spec := some (.images
                  (select_candidates c.db.imagesCols PRIOR_Q_COLUMN_CANDIDATES)
                  (select_candidates c.db.imagesCols PRIOR_T_COLUMN_CANDIDATES)) }) := by
  unfold getImagePriorSpec
  rw [hc]
  simp only [if_pos h]

theorem gips_separate (c : Conn) (hc : c.image_prior_spec = none)
    (h : ¬((select_candidates c.db.imagesCols PRIOR_Q_COLUMN_CANDIDATES).length = 4 ∧
           (select_candidates c.db.imagesCols PRIOR_T_COLUMN_CANDIDATES).length = 3))
    (hp : c.db.posePriorsTable = true) :
    getImagePriorSpec c =
      (.ok .pose_priors,
       { c with trace := c.trace ++ [.probeImagesSchema] ++ [.probeTableCatalog],
                image_prior_spec := some .pose_priors }) := by
  unfold getImagePriorSpec
  rw [hc]
  simp only [if_neg h, hp, if_pos]

theorem gips_fail (c : Conn) (hc : c.image_prior_spec = none)
    (h : ¬((select_candidates c.db.imagesCols PRIOR_Q_COLUMN_CANDIDATES).length = 4 ∧
           (select_candidates c.db.imagesCols PRIOR_T_COLUMN_CANDIDATES).length = 3))
    (hp : c.db.posePriorsTable = false) :
    getImagePriorSpec c =
      (.error (.unexpectedSchema (missing_prior_columns c.db.imagesCols)),
       { c with trace := c.trace ++ [.probeImagesSchema] ++ [.probeTableCatalog] }) := by
  unfold getImagePriorSpec
  rw [hc]
  simp only [if_neg h, hp, Bool.false_eq_true, if_false]

/-- Resolution never mutates the database, never performs a pose write, and
appends only metadata-read events to the statement trace. -/
theorem gips_reads_only (c : Conn) :
    (getImagePriorSpec c).2.db = c.db ∧
      (getImagePriorSpec c).2.poseWrites = c.poseWrites ∧
      ∃ t, (getImagePriorSpec c).2.trace = c.trace ++ t ∧
        ∀ e ∈ t, e = Event.probeImagesSchema ∨ e = Event.probeTableCatalog := by
  cases hc : c.image_prior_spec with
  | some s =>
    rw [gips_cached c s hc]
    exact ⟨rfl, rfl, [], by simp, by simp⟩
  | none =>
    by_cases h : (select_candidates c.db.imagesCols PRIOR_Q_COLUMN_CANDIDATES).length = 4 ∧
        (select_candidates c.db.imagesCols PRIOR_T_COLUMN_CANDIDATES).length = 3
    · rw [gips_inline c hc h]
      exact ⟨rfl, rfl, [.probeImagesSchema], by simp, by simp⟩
    · cases hp : c.db.posePriorsTable with
      | true =>
        rw [gips_separate c hc h hp]
        exact ⟨rfl, rfl, [.probeImagesSchema, .probeTableCatalog], by simp, by simp⟩
      | false =>
        rw [gips_fail c hc h hp]
        exact ⟨rfl, rfl, [.probeImagesSchema, .probeTableCatalog], by simp, by simp⟩

/-- A successful resolution memoizes exactly its result. -/
theorem gips_cache_of_ok (c : Conn) (s : PriorSpec)
    (h : (getImagePriorSpec c).1 = .ok s) :
    (getImagePriorSpec c).2.image_prior_spec = some s := by
  cases hc : c.image_prior_spec with
  | some s0 =>
    rw [gips_cached c s0 hc] at h ⊢
    obtain ⟨hs⟩ := h
    exact hc
  | none =>
    by_cases hcond : (select_candidates c.db.imagesCols PRIOR_Q_COLUMN_CANDIDATES).length = 4 ∧
        (select_candidates c.db.imagesCols PRIOR_T_COLUMN_CANDIDATES).length = 3
    · rw [gips_inline c hc hcond] at h ⊢
      obtain ⟨hs⟩ := h
      rfl
    · cases hp : c.db.posePriorsTable with
      | true =>
        rw [gips_separate c hc hcond hp] at h ⊢
        obtain ⟨hs⟩ := h
        rfl
      | false =>
        rw [gips_fail c hc hcond hp] at h
        exact absurd h (by simp)

/-- A failing resolution caches nothing. -/
theorem gips_cache_of_error (c : Conn) (e : DBError)
    (h : (getImagePriorSpec c).1 = .error e) :
    (getImagePriorSpec c).2.image_prior_spec = none ∧ c.image_prior_spec = none := by
  cases hc : c.image_prior_spec with
  | some s0 =>
    rw [gips_cached c s0 hc] at h
    exact absurd h (by simp)
  | none =>
    by_cases hcond : (select_candidates c.db.imagesCols PRIOR_Q_COLUMN_CANDIDATES).length = 4 ∧
        (select_candidates c.db.imagesCols PRIOR_T_COLUMN_CANDIDATES).length = 3
    · rw [gips_inline c hc hcond] at h
      exact absurd h (by simp)
    · cases hp : c.db.posePriorsTable with
      | true =>
        rw [gips_separate c hc hcond hp] at h
        exact absurd h (by simp)
      | false =>
        rw [gips_fail c hc hcond hp]
        exact ⟨hc, rfl⟩

/-- Resolving twice is the same as resolving once: the memo is read back. -/
theorem gips_idempotent (c : Conn) (s : PriorSpec)
    (h : (getImagePriorSpec c).1 = .ok s) :
    getImagePriorSpec (getImagePriorSpec c).2 = (.ok s, (getImagePriorSpec c).2) :=
  gips_cached _ s (gips_cache_of_ok c s h)

/-! ## Dispatch of the pose writer over the resolved strategy -/

theorem update_image_eq_inline (conn : Conn) (qs ts : List String) (IMAGE_ID : Int)
    (QW QX QY QZ TX TY TZ : Nat) (CAMERA_ID : Int)
    (h : (getImagePriorSpec conn).1 = .ok (.images qs ts)) :
    update_image conn IMAGE_ID QW QX QY QZ TX TY TZ CAMERA_ID
      = (.ok (), apply_inline_write (getImagePriorSpec conn).2 qs ts
          IMAGE_ID QW QX QY QZ TX TY TZ CAMERA_ID) := by
  unfold update_image
  rcases hp : getImagePriorSpec conn with ⟨r, c2⟩
  rw [hp] at h
  simp only at h
  subst h
  rfl

theorem update_image_eq_separate (conn : Conn) (IMAGE_ID : Int)
    (QW QX QY QZ TX TY TZ : Nat) (CAMERA_ID : Int)
    (h : (getImagePriorSpec conn).1 = .ok .pose_priors) :
    update_image conn IMAGE_ID QW QX QY QZ TX TY TZ CAMERA_ID
      = (.ok (), apply_separate_write (getImagePriorSpec conn).2
          IMAGE_ID QW QX QY QZ TX TY TZ CAMERA_ID) := by
  unfold update_image
  rcases hp : getImagePriorSpec conn with ⟨r, c2⟩
  rw [hp] at h
  simp only at h
  subst h
  rfl

theorem update_image_eq_error (conn : Conn) (IMAGE_ID : Int)
    (QW QX QY QZ TX TY TZ : Nat) (CAMERA_ID : Int) (e : DBError)
    (h : (getImagePriorSpec conn).1 = .error e) :
    update_image conn IMAGE_ID QW QX QY QZ TX TY TZ CAMERA_ID
      = (.error e, (getImagePriorSpec conn).2) := by
  unfold update_image
  rcases hp : getImagePriorSpec conn with ⟨r, c2⟩
  rw [hp] at h
  simp only at h
  subst h
  rfl

/-! ## Candidate-selection lemmas -/

theorem filterMap_length_of_all_isSome {α β : Type} (f : α → Option β) (l : List α)
    (h : ∀ a ∈ l, (f a).isSome) : (l.filterMap f).length = l.length := by
  induction l with
  | nil => rfl
  | cons a rest ih =>
    obtain ⟨b, hb⟩ := Option.isSome_iff_exists.mp (h a (List.mem_cons_self a rest))
    rw [List.filterMap_cons_some hb, List.length_cons, List.length_cons,
      ih (fun x hx => h x (List.mem_cons_of_mem a hx))]

theorem select_candidates_length_lt (cols : List String) (groups : List (List String))
    (g : List String) (hg : g ∈ groups)
    (hnone : g.find? (fun c => cols.contains c) = none) :
    (select_candidates cols groups).length < groups.length := by
  obtain ⟨s, t, rfl⟩ := List.append_of_mem hg
  rw [select_candidates, List.filterMap_append, List.filterMap_cons_none hnone,
    List.length_append, List.length_append, List.length_cons]
  have hs := List.length_filterMap_le (fun group => group.find? (fun c => cols.contains c)) s
  have ht := List.length_filterMap_le (fun group => group.find? (fun c => cols.contains c)) t
  have ht2 := List.length_filterMap_le (List.find? fun c => cols.contains c) t
  omega

/-- If some candidate group resolves to no column, the inline-columns
condition of the resolver is false. -/
theorem select_incomplete (cols : List String)
    (h : ∃ g ∈ PRIOR_Q_COLUMN_CANDIDATES ++ PRIOR_T_COLUMN_CANDIDATES,
        g.find? (fun c => cols.contains c) = none) :
    ¬((select_candidates cols PRIOR_Q_COLUMN_CANDIDATES).length = 4 ∧
      (select_candidates cols PRIOR_T_COLUMN_CANDIDATES).length = 3) := by
  rintro ⟨hq, ht⟩
  obtain ⟨g, hg, hnone⟩ := h
  rcases List.mem_append.mp hg with hgq | hgt
  · have hlt := select_candidates_length_lt cols PRIOR_Q_COLUMN_CANDIDATES g hgq hnone
    rw [hq] at hlt
    simp [PRIOR_Q_COLUMN_CANDIDATES] at hlt
  · have hlt := select_candidates_length_lt cols PRIOR_T_COLUMN_CANDIDATES g hgt hnone
    rw [ht] at hlt
    simp [PRIOR_T_COLUMN_CANDIDATES] at hlt

theorem mem_insertSorted (x y : String) (l : List String) :
    y ∈ insertSorted x l ↔ y = x ∨ y ∈ l := by
  induction l with
  | nil => simp [insertSorted]
  | cons z zs ih =>
    by_cases h : strLe x z = true
    · simp [insertSorted, h]
    · simp only [insertSorted, if_neg h, List.mem_cons, ih]
      tauto

theorem mem_sortStrings (y : String) (l : List String) :
    y ∈ sortStrings l ↔ y ∈ l := by
  induction l with
  | nil => simp [sortStrings]
  | cons x xs ih =>
    simp only [sortStrings, mem_insertSorted, ih, List.mem_cons]

/-- The missing-column report contains exactly the known prior column names
absent from the images table. -/
theorem mem_missing_prior_columns (cols : List String) (c : String) :
    c ∈ missing_prior_columns cols ↔ c ∈ known_prior_columns ∧ ¬cols.contains c := by
  rw [missing_prior_columns, mem_sortStrings, List.mem_filter]
  simp

/-! ## C1: schema classification -/

/-- C1: on a fresh connection, schema resolution picks, for each of the
four orientation roles and three position roles, the first synonym column
name present among the images table's columns; when every role resolves,
the result is the inline-columns strategy carrying exactly the resolved
names in role order, and otherwise, when a pose_priors table exists, the
result is the separate-table strategy. -/
theorem schema_resolution_classification (conn : Conn)
    (hfresh : conn.image_prior_spec = none) :
    ((∀ g ∈ PRIOR_Q_COLUMN_CANDIDATES ++ PRIOR_T_COLUMN_CANDIDATES,
        (g.find? (fun c => conn.db.imagesCols.contains c)).isSome) →
      (getImagePriorSpec conn).1 = .ok (.images
        (PRIOR_Q_COLUMN_CANDIDATES.filterMap
          (fun g => g.find? (fun c => conn.db.imagesCols.contains c)))
        (PRIOR_T_COLUMN_CANDIDATES.filterMap
          (fun g => g.find? (fun c => conn.db.imagesCols.contains c))))) ∧
    ((∃ g ∈ PRIOR_Q_COLUMN_CANDIDATES ++ PRIOR_T_COLUMN_CANDIDATES,
        g.find? (fun c => conn.db.imagesCols.contains c) = none) →
      conn.db.posePriorsTable = true →
      (getImagePriorSpec conn).1 = .ok .pose_priors) := by
  constructor
  · intro hall
    have hq : (select_candidates conn.db.imagesCols PRIOR_Q_COLUMN_CANDIDATES).length = 4 := by
      rw [select_candidates, filterMap_length_of_all_isSome _ _
        (fun g hg => hall g (List.mem_append_left _ hg))]
      rfl
    have ht : (select_candidates conn.db.imagesCols PRIOR_T_COLUMN_CANDIDATES).length = 3 := by
      rw [select_candidates, filterMap_length_of_all_isSome _ _
        (fun g hg => hall g (List.mem_append_right _ hg))]
      rfl
    rw [gips_inline conn hfresh ⟨hq, ht⟩]
    rfl
  · intro hsome hp
    rw [gips_separate conn hfresh (select_incomplete conn.db.imagesCols hsome) hp]

/-- Witness for C1: the modern inline layout resolves to the qvec/tvec
column names in role order, and the bare layout with a pose_priors table
resolves to the separate-table strategy. -/
theorem schema_resolution_classification_witness :
    (getImagePriorSpec (connect dbModern)).1
        = .ok (.images ["qvec_prior_w", "qvec_prior_x", "qvec_prior_y", "qvec_prior_z"]
            ["tvec_prior_x", "tvec_prior_y", "tvec_prior_z"]) ∧
      (getImagePriorSpec (connect dbSeparate)).1 = .ok .pose_priors := by
  constructor
  · exact ((schema_resolution_classification (connect dbModern) rfl).1
      (by decide)).trans rfl
  · exact (schema_resolution_classification (connect dbSeparate) rfl).2
      ⟨["prior_qw", "qvec_prior_w"], by decide, by decide⟩ rfl

/-! ## C5: unrecognized schema -/

/-- C5: on a fresh connection to a database whose images table lacks a full
set of inline prior columns and which has no pose_priors table, resolution
fails with an error carrying the missing-column report, that report names
every known prior column absent from the table and only absent columns, no
resolution result is cached, and a pose write on the connection errors
without writing any row. -/
theorem schema_resolution_failure (conn : Conn) (cA cB : String) (IMAGE_ID : Int)
    (QW QX QY QZ TX TY TZ : Nat) (CAMERA_ID : Int)
    (hfresh : conn.image_prior_spec = none)
    (hnop : conn.db.posePriorsTable = false)
    (hmiss : ∃ g ∈ PRIOR_Q_COLUMN_CANDIDATES ++ PRIOR_T_COLUMN_CANDIDATES,
        ∀ c ∈ g, ¬conn.db.imagesCols.contains c)
    (hA1 : cA ∈ known_prior_columns) (hA2 : ¬conn.db.imagesCols.contains cA)
    (hB : cB ∈ missing_prior_columns conn.db.imagesCols) :
    (getImagePriorSpec conn).1
        = .error (.unexpectedSchema (missing_prior_columns conn.db.imagesCols)) ∧
      cA ∈ missing_prior_columns conn.db.imagesCols ∧
      ¬conn.db.imagesCols.contains cB ∧
      (getImagePriorSpec conn).2.image_prior_spec = none ∧
      (update_image conn IMAGE_ID QW QX QY QZ TX TY TZ CAMERA_ID).2.db = conn.db ∧
      isErrW (update_image conn IMAGE_ID QW QX QY QZ TX TY TZ CAMERA_ID).1 = true := by
  have hnone : ∃ g ∈ PRIOR_Q_COLUMN_CANDIDATES ++ PRIOR_T_COLUMN_CANDIDATES,
      g.find? (fun c => conn.db.imagesCols.contains c) = none := by
    obtain ⟨g, hg, hall⟩ := hmiss
    exact ⟨g, hg, List.find?_eq_none.mpr hall⟩
  have hcond := select_incomplete conn.db.imagesCols hnone
  have hres : (getImagePriorSpec conn).1
      = .error (.unexpectedSchema (missing_prior_columns conn.db.imagesCols)) := by
    rw [gips_fail conn hfresh hcond hnop]
  have hupd := update_image_eq_error conn IMAGE_ID QW QX QY QZ TX TY TZ CAMERA_ID _ hres
  refine ⟨hres, ?_, ?_, ?_, ?_, ?_⟩
  · exact (mem_missing_prior_columns _ cA).mpr ⟨hA1, hA2⟩
  · exact ((mem_missing_prior_columns _ cB).mp hB).2
  · exact (gips_cache_of_error conn _ hres).1
  · rw [hupd]
    exact (gips_reads_only conn).1
  · rw [hupd]
    rfl

/-- Witness for C5 on the bare schema without a pose_priors table. -/
theorem schema_resolution_failure_witness :
    (getImagePriorSpec (connect dbBad)).1
        = .error (.unexpectedSchema (missing_prior_columns (connect dbBad).db.imagesCols)) ∧
      "prior_qw" ∈ missing_prior_columns (connect dbBad).db.imagesCols ∧
      ¬(connect dbBad).db.imagesCols.contains "tvec_prior_z" ∧
      (getImagePriorSpec (connect dbBad)).2.image_prior_spec = none ∧
      (update_image (connect dbBad) 1 0 0 0 0 0 0 0 2).2.db = (connect dbBad).db ∧
      isErrW (update_image (connect dbBad) 1 0 0 0 0 0 0 0 2).1 = true :=
  schema_resolution_failure (connect dbBad) "prior_qw" "tvec_prior_z" 1 0 0 0 0 0 0 0 2
    rfl rfl ⟨["prior_qw", "qvec_prior_w"], by decide, by decide⟩
    (by decide) (by decide) (by decide)

/-! ## C2: the inline-columns write -/

theorem list_len4 {α : Type} (l : List α) (h : l.length = 4) :
    ∃ a b c d, l = [a, b, c, d] := by
  rcases l with _ | ⟨a, _ | ⟨b, _ | ⟨c, _ | ⟨d, _ | ⟨e, rest⟩⟩⟩⟩⟩
  · simp at h
  · simp at h
  · simp at h
  · simp at h
  · exact ⟨a, b, c, d, rfl⟩
  · simp at h

theorem list_len3 {α : Type} (l : List α) (h : l.length = 3) :
    ∃ a b c, l = [a, b, c] := by
  rcases l with _ | ⟨a, _ | ⟨b, _ | ⟨c, _ | ⟨d, rest⟩⟩⟩⟩
  · simp at h
  · simp at h
  · simp at h
  · exact ⟨a, b, c, rfl⟩
  · simp at h

/-- C2: under the inline-columns strategy, a pose write issues a single
UPDATE that sets exactly the seven resolved orientation/position columns
(in role order) to the given values plus camera_id on the row keyed by
IMAGE_ID, leaving every other column of that row, every other row, and the
other tables unchanged. -/
theorem update_image_inline_effect (conn : Conn) (qs ts : List String) (IMAGE_ID : Int)
    (QW QX QY QZ TX TY TZ : Nat) (CAMERA_ID : Int) (rowB : Row) (c : String) (iid' : Int)
    (hres : (getImagePriorSpec conn).1 = .ok (.images qs ts))
    (hq4 : qs.length = 4) (ht3 : ts.length = 3)
    (hnd : (qs ++ ts ++ ["camera_id"]).Nodup)
    (hrow : getRow? conn.db.images IMAGE_ID = some rowB)
    (hpres : ∀ col ∈ qs ++ ts ++ ["camera_id"], (rowGet? rowB col).isSome)
    (hc : c ∉ qs ++ ts ++ ["camera_id"])
    (hiid : iid' ≠ IMAGE_ID) :
    (update_image conn IMAGE_ID QW QX QY QZ TX TY TZ CAMERA_ID).1 = .ok () ∧
    cellGet? (update_image conn IMAGE_ID QW QX QY QZ TX TY TZ CAMERA_ID).2.db.images
        IMAGE_ID (qs.get ⟨0, by omega⟩) = some (.floatV QW) ∧
    cellGet? (update_image conn IMAGE_ID QW QX QY QZ TX TY TZ CAMERA_ID).2.db.images
        IMAGE_ID (qs.get ⟨1, by omega⟩) = some (.floatV QX) ∧
    cellGet? (update_image conn IMAGE_ID QW QX QY QZ TX TY TZ CAMERA_ID).2.db.images
        IMAGE_ID (qs.get ⟨2, by omega⟩) = some (.floatV QY) ∧
    cellGet? (update_image conn IMAGE_ID QW QX QY QZ TX TY TZ CAMERA_ID).2.db.images
        IMAGE_ID (qs.get ⟨3, by omega⟩) = some (.floatV QZ) ∧
    cellGet? (update_image conn IMAGE_ID QW QX QY QZ TX TY TZ CAMERA_ID).2.db.images
        IMAGE_ID (ts.get ⟨0, by omega⟩) = some (.floatV TX) ∧
    cellGet? (update_image conn IMAGE_ID QW QX QY QZ TX TY TZ CAMERA_ID).2.db.images
        IMAGE_ID (ts.get ⟨1, by omega⟩) = some (.floatV TY) ∧
    cellGet? (update_image conn IMAGE_ID QW QX QY QZ TX TY TZ CAMERA_ID).2.db.images
        IMAGE_ID (ts.get ⟨2, by omega⟩) = some (.floatV TZ) ∧
    cellGet? (update_image conn IMAGE_ID QW QX QY QZ TX TY TZ CAMERA_ID).2.db.images
        IMAGE_ID "camera_id" = some (.intV CAMERA_ID) ∧
    cellGet? (update_image conn IMAGE_ID QW QX QY QZ TX TY TZ CAMERA_ID).2.db.images
        IMAGE_ID c = cellGet? conn.db.images IMAGE_ID c ∧
    getRow? (update_image conn IMAGE_ID QW QX QY QZ TX TY TZ CAMERA_ID).2.db.images iid'
        = getRow? conn.db.images iid' ∧
    (update_image conn IMAGE_ID QW QX QY QZ TX TY TZ CAMERA_ID).2.db.posePriors
        = conn.db.posePriors ∧
    (update_image conn IMAGE_ID QW QX QY QZ TX TY TZ CAMERA_ID).2.db.cameras
        = conn.db.cameras ∧
    (update_image conn IMAGE_ID QW QX QY QZ TX TY TZ CAMERA_ID).2.trace
        = (getImagePriorSpec conn).2.trace ++ [.updateImagesInline IMAGE_ID] := by
  obtain ⟨q1, q2, q3, q4, rfl⟩ := list_len4 qs hq4
  obtain ⟨t1, t2, t3, rfl⟩ := list_len3 ts ht3
  have hrw := update_image_eq_inline conn [q1, q2, q3, q4] [t1, t2, t3]
    IMAGE_ID QW QX QY QZ TX TY TZ CAMERA_ID hres
  have hdb : (getImagePriorSpec conn).2.db = conn.db := (gips_reads_only conn).1
  have hu : update_image conn IMAGE_ID QW QX QY QZ TX TY TZ CAMERA_ID
      = (.ok (), { (getImagePriorSpec conn).2 with
          db := { (getImagePriorSpec conn).2.db with
            images := updateWhere (getImagePriorSpec conn).2.db.images IMAGE_ID
              [(q1, .floatV QW), (q2, .floatV QX), (q3, .floatV QY), (q4, .floatV QZ),
               (t1, .floatV TX), (t2, .floatV TY), (t3, .floatV TZ),
               ("camera_id", .intV CAMERA_ID)] },
          trace := (getImagePriorSpec conn).2.trace ++ [.updateImagesInline IMAGE_ID],
          poseWrites := (getImagePriorSpec conn).2.poseWrites
            ++ [⟨IMAGE_ID, QW, QX, QY, QZ, TX, TY, TZ, CAMERA_ID⟩] }) := by
    rw [hrw]
    rfl
  have hndA : (([(q1, Value.floatV QW), (q2, .floatV QX), (q3, .floatV QY), (q4, .floatV QZ),
      (t1, .floatV TX), (t2, .floatV TY), (t3, .floatV TZ),
      ("camera_id", .intV CAMERA_ID)].map Prod.fst)).Nodup := hnd
  have key : ∀ p ∈ [(q1, Value.floatV QW), (q2, .floatV QX), (q3, .floatV QY),
      (q4, .floatV QZ), (t1, .floatV TX), (t2, .floatV TY), (t3, .floatV TZ),
      ("camera_id", .intV CAMERA_ID)],
      cellGet? (update_image conn IMAGE_ID QW QX QY QZ TX TY TZ CAMERA_ID).2.db.images
        IMAGE_ID p.1 = some p.2 := by
    intro p hp
    rw [hu]
    show cellGet? (updateWhere (getImagePriorSpec conn).2.db.images IMAGE_ID _) IMAGE_ID p.1
      = some p.2
    rw [hdb, cellGet?, getRow?_updateWhere_eq conn.db.images IMAGE_ID _ rowB hrow,
      Option.some_bind]
    exact rowGet?_rowSets_mem rowB _ p.1 p.2 hndA hp
      (hpres p.1 (List.mem_map_of_mem Prod.fst hp))
  refine ⟨by rw [hu], key (q1, .floatV QW) (by simp), key (q2, .floatV QX) (by simp),
    key (q3, .floatV QY) (by simp), key (q4, .floatV QZ) (by simp),
    key (t1, .floatV TX) (by simp), key (t2, .floatV TY) (by simp),
    key (t3, .floatV TZ) (by simp), key ("camera_id", .intV CAMERA_ID) (by simp),
    ?_, ?_, ?_, ?_, ?_⟩
  · rw [hu]
    show cellGet? (updateWhere (getImagePriorSpec conn).2.db.images IMAGE_ID _) IMAGE_ID c
      = cellGet? conn.db.images IMAGE_ID c
    rw [hdb, cellGet?, cellGet?, getRow?_updateWhere_eq conn.db.images IMAGE_ID _ rowB hrow,
      hrow, Option.some_bind, Option.some_bind]
    refine rowGet?_rowSets_notmem rowB _ c ?_
    intro p hp hcon
    exact hc (hcon ▸ List.mem_map_of_mem Prod.fst hp)
  · rw [hu]
    show getRow? (updateWhere (getImagePriorSpec conn).2.db.images IMAGE_ID _) iid'
      = getRow? conn.db.images iid'
    rw [hdb]
    exact getRow?_updateWhere_ne conn.db.images IMAGE_ID iid' _ hiid
  · rw [hu]
    show (getImagePriorSpec conn).2.db.posePriors = conn.db.posePriors
    rw [hdb]
  · rw [hu]
    show (getImagePriorSpec conn).2.db.cameras = conn.db.cameras
    rw [hdb]
  · rw [hu]

/-- Witness for C2, replaying the repository test: image 1 with zero
priors receives (1.0, 0, 0, 0), (0.1, 0.2, 0.3) and camera 2; its name and
the other tables stay untouched. -/
theorem update_image_inline_effect_witness :
    (update_image (connect dbModern) 1 f64_one 0 0 0 f64_tenth f64_fifth f64_three_tenths 2).1
        = .ok () ∧
    cellGet? (update_image (connect dbModern) 1 f64_one 0 0 0 f64_tenth f64_fifth
        f64_three_tenths 2).2.db.images 1 "qvec_prior_w" = some (.floatV f64_one) ∧
    cellGet? (update_image (connect dbModern) 1 f64_one 0 0 0 f64_tenth f64_fifth
        f64_three_tenths 2).2.db.images 1 "tvec_prior_z" = some (.floatV f64_three_tenths) ∧
    cellGet? (update_image (connect dbModern) 1 f64_one 0 0 0 f64_tenth f64_fifth
        f64_three_tenths 2).2.db.images 1 "camera_id" = some (.intV 2) ∧
    cellGet? (update_image (connect dbModern) 1 f64_one 0 0 0 f64_tenth f64_fifth
        f64_three_tenths 2).2.db.images 1 "name"
      = cellGet? (connect dbModern).db.images 1 "name" ∧
    (update_image (connect dbModern) 1 f64_one 0 0 0 f64_tenth f64_fifth
        f64_three_tenths 2).2.db.posePriors = (connect dbModern).db.posePriors := by
  have h := update_image_inline_effect (connect dbModern)
    ["qvec_prior_w", "qvec_prior_x", "qvec_prior_y", "qvec_prior_z"]
    ["tvec_prior_x", "tvec_prior_y", "tvec_prior_z"]
    1 f64_one 0 0 0 f64_tenth f64_fifth f64_three_tenths 2 modernRow1 "name" 99
    (by rfl) (by rfl) (by rfl) (by decide) (by rfl) (by decide) (by decide) (by decide)
  exact ⟨h.1, h.2.1, h.2.2.2.2.2.2.2.1, h.2.2.2.2.2.2.2.2.1, h.2.2.2.2.2.2.2.2.2.1,
    h.2.2.2.2.2.2.2.2.2.2.2.1⟩

/-! ## C3: the separate-table write -/

/-- C3: under the separate-table strategy, a pose write updates only the
camera_id column of the image row, inserts-or-replaces a pose_priors row
keyed by IMAGE_ID whose position blob decodes (as three float64 values) to
the given position, whose coordinate_system is -1 and whose covariance
blob decodes to nine NaN patterns; other rows are untouched and the
resulting database state does not depend on the quaternion. -/
theorem update_image_separate_effect (conn : Conn) (IMAGE_ID : Int)
    (QW QX QY QZ TX TY TZ QW' QX' QY' QZ' : Nat) (CAMERA_ID : Int)
    (rowB : Row) (c : String) (iid' jid' : Int)
    (hres : (getImagePriorSpec conn).1 = .ok .pose_priors)
    (hTX : TX < 2 ^ 64) (hTY : TY < 2 ^ 64) (hTZ : TZ < 2 ^ 64)
    (hrow : getRow? conn.db.images IMAGE_ID = some rowB)
    (hcam : (rowGet? rowB "camera_id").isSome)
    (hc : c ≠ "camera_id") (hiid : iid' ≠ IMAGE_ID) (hjid : jid' ≠ IMAGE_ID) :
    (update_image conn IMAGE_ID QW QX QY QZ TX TY TZ CAMERA_ID).1 = .ok () ∧
    cellGet? (update_image conn IMAGE_ID QW QX QY QZ TX TY TZ CAMERA_ID).2.db.images
        IMAGE_ID "camera_id" = some (.intV CAMERA_ID) ∧
    cellGet? (update_image conn IMAGE_ID QW QX QY QZ TX TY TZ CAMERA_ID).2.db.images
        IMAGE_ID c = cellGet? conn.db.images IMAGE_ID c ∧
    getRow? (update_image conn IMAGE_ID QW QX QY QZ TX TY TZ CAMERA_ID).2.db.images iid'
        = getRow? conn.db.images iid' ∧
    getPrior? (update_image conn IMAGE_ID QW QX QY QZ TX TY TZ CAMERA_ID).2.db.posePriors
        IMAGE_ID = some ⟨array_to_blob [TX, TY, TZ], -1,
          array_to_blob (List.replicate 9 NAN64)⟩ ∧
    blob_to_array (array_to_blob [TX, TY, TZ]) [(3 : Int)] = .ok ([TX, TY, TZ], [3]) ∧
    blob_to_array (array_to_blob (List.replicate 9 NAN64)) [(-1 : Int)]
        = .ok (List.replicate 9 NAN64, [9]) ∧
    isNaN64 NAN64 = true ∧
    getPrior? (update_image conn IMAGE_ID QW QX QY QZ TX TY TZ CAMERA_ID).2.db.posePriors
        jid' = getPrior? conn.db.posePriors jid' ∧
    (update_image conn IMAGE_ID QW' QX' QY' QZ' TX TY TZ CAMERA_ID).2.db
        = (update_image conn IMAGE_ID QW QX QY QZ TX TY TZ CAMERA_ID).2.db ∧
    (update_image conn IMAGE_ID QW QX QY QZ TX TY TZ CAMERA_ID).2.trace
        = (getImagePriorSpec conn).2.trace
          ++ [.updateImagesCameraId IMAGE_ID, .insertPosePrior IMAGE_ID] := by
  have hdb : (getImagePriorSpec conn).2.db = conn.db := (gips_reads_only conn).1
  have hu : update_image conn IMAGE_ID QW QX QY QZ TX TY TZ CAMERA_ID
      = (.ok (), { (getImagePriorSpec conn).2 with
          db := { (getImagePriorSpec conn).2.db with
            images := updateWhere (getImagePriorSpec conn).2.db.images IMAGE_ID
              [("camera_id", .intV CAMERA_ID)],
            posePriors := insertOrReplacePrior (getImagePriorSpec conn).2.db.posePriors
              IMAGE_ID ⟨array_to_blob [TX, TY, TZ], -1,
                array_to_blob (List.replicate 9 NAN64)⟩ },
          trace := (getImagePriorSpec conn).2.trace
            ++ [.updateImagesCameraId IMAGE_ID, .insertPosePrior IMAGE_ID],
          poseWrites := (getImagePriorSpec conn).2.poseWrites
            ++ [⟨IMAGE_ID, QW, QX, QY, QZ, TX, TY, TZ, CAMERA_ID⟩] }) := by
    rw [update_image_eq_separate conn IMAGE_ID QW QX QY QZ TX TY TZ CAMERA_ID hres]
    rfl
  have hu' : update_image conn IMAGE_ID QW' QX' QY' QZ' TX TY TZ CAMERA_ID
      = (.ok (), { (getImagePriorSpec conn).2 with
          db := { (getImagePriorSpec conn).2.db with
            images := updateWhere (getImagePriorSpec conn).2.db.images IMAGE_ID
              [("camera_id", .intV CAMERA_ID)],
            posePriors := insertOrReplacePrior (getImagePriorSpec conn).2.db.posePriors
              IMAGE_ID ⟨array_to_blob [TX, TY, TZ], -1,
                array_to_blob (List.replicate 9 NAN64)⟩ },
          trace := (getImagePriorSpec conn).2.trace
            ++ [.updateImagesCameraId IMAGE_ID, .insertPosePrior IMAGE_ID],
          poseWrites := (getImagePriorSpec conn).2.poseWrites
            ++ [⟨IMAGE_ID, QW', QX', QY', QZ', TX, TY, TZ, CAMERA_ID⟩] }) := by
    rw [update_image_eq_separate conn IMAGE_ID QW' QX' QY' QZ' TX TY TZ CAMERA_ID hres]
    rfl
  have hball : ∀ w ∈ [TX, TY, TZ], w < 2 ^ 64 := by
    intro w hw
    simp only [List.mem_cons, List.not_mem_nil, or_false] at hw
    rcases hw with rfl | rfl | rfl
    · exact hTX
    · exact hTY
    · exact hTZ
  refine ⟨by rw [hu], ?_, ?_, ?_, ?_, ?_, ?_, by decide, ?_, ?_, ?_⟩
  · rw [hu]
    show cellGet? (updateWhere (getImagePriorSpec conn).2.db.images IMAGE_ID _) IMAGE_ID
      "camera_id" = some (.intV CAMERA_ID)
    rw [hdb, cellGet?, getRow?_updateWhere_eq conn.db.images IMAGE_ID _ rowB hrow,
      Option.some_bind]
    exact rowGet?_rowSets_mem rowB _ "camera_id" (.intV CAMERA_ID) (by simp) (by simp) hcam
  · rw [hu]
    show cellGet? (updateWhere (getImagePriorSpec conn).2.db.images IMAGE_ID _) IMAGE_ID c
      = cellGet? conn.db.images IMAGE_ID c
    rw [hdb, cellGet?, cellGet?, getRow?_updateWhere_eq conn.db.images IMAGE_ID _ rowB hrow,
      hrow, Option.some_bind, Option.some_bind]
    refine rowGet?_rowSets_notmem rowB _ c ?_
    intro p hp hcon
    simp only [List.mem_singleton] at hp
    rw [hp] at hcon
    exact hc hcon.symm
  · rw [hu]
    show getRow? (updateWhere (getImagePriorSpec conn).2.db.images IMAGE_ID _) iid'
      = getRow? conn.db.images iid'
    rw [hdb]
    exact getRow?_updateWhere_ne conn.db.images IMAGE_ID iid' _ hiid
  · rw [hu]
    exact getPrior?_insertOrReplacePrior_self _ IMAGE_ID _
  · exact codec_roundtrip_aux [3] [TX, TY, TZ] rfl hball
  · rfl
  · rw [hu]
    show getPrior? (insertOrReplacePrior (getImagePriorSpec conn).2.db.posePriors IMAGE_ID _)
      jid' = getPrior? conn.db.posePriors jid'
    rw [hdb]
    exact getPrior?_insertOrReplacePrior_ne conn.db.posePriors IMAGE_ID jid' _ hjid
  · rw [hu, hu']
  · rw [hu]

/-- Witness for C3, replaying the repository test on the separate-table
schema with quaternion (0,0,0,1), position (0.1,0.2,0.3) and camera 2. -/
theorem update_image_separate_effect_witness :
    (update_image (connect dbSeparate) 1 0 0 0 f64_one f64_tenth f64_fifth
        f64_three_tenths 2).1 = .ok () ∧
    cellGet? (update_image (connect dbSeparate) 1 0 0 0 f64_one f64_tenth f64_fifth
        f64_three_tenths 2).2.db.images 1 "camera_id" = some (.intV 2) ∧
    cellGet? (update_image (connect dbSeparate) 1 0 0 0 f64_one f64_tenth f64_fifth
        f64_three_tenths 2).2.db.images 1 "name"
      = cellGet? (connect dbSeparate).db.images 1 "name" ∧
    getPrior? (update_image (connect dbSeparate) 1 0 0 0 f64_one f64_tenth f64_fifth
        f64_three_tenths 2).2.db.posePriors 1
      = some ⟨array_to_blob [f64_tenth, f64_fifth, f64_three_tenths], -1,
          array_to_blob (List.replicate 9 NAN64)⟩ ∧
    blob_to_array (array_to_blob [f64_tenth, f64_fifth, f64_three_tenths]) [(3 : Int)]
      = .ok ([f64_tenth, f64_fifth, f64_three_tenths], [3]) ∧
    (update_image (connect dbSeparate) 1 9 9 9 9 f64_tenth f64_fifth f64_three_tenths 2).2.db
      = (update_image (connect dbSeparate) 1 0 0 0 f64_one f64_tenth f64_fifth
          f64_three_tenths 2).2.db := by
  have h := update_image_separate_effect (connect dbSeparate) 1
    0 0 0 f64_one f64_tenth f64_fifth f64_three_tenths 9 9 9 9 2 bareRow1 "name" 77 77
    (by rfl) (by decide) (by decide) (by decide) (by rfl) (by decide)
    (by decide) (by decide) (by decide)
  exact ⟨h.1, h.2.1, h.2.2.1, h.2.2.2.2.1, h.2.2.2.2.2.1, h.2.2.2.2.2.2.2.2.2.1⟩

/-! ## C10: the orphan pose-prior row -/

/-- C10: under the separate-table strategy, a pose write for an image id
with no images row still succeeds: the camera_id UPDATE matches zero rows
and leaves the images table unchanged, yet a pose_priors row keyed by that
id is inserted, orphaned from any image row. -/
theorem update_image_separate_orphan (conn : Conn) (IMAGE_ID : Int)
    (QW QX QY QZ TX TY TZ : Nat) (CAMERA_ID : Int)
    (hres : (getImagePriorSpec conn).1 = .ok .pose_priors)
    (habs : getRow? conn.db.images IMAGE_ID = none) :
    (update_image conn IMAGE_ID QW QX QY QZ TX TY TZ CAMERA_ID).1 = .ok () ∧
    (update_image conn IMAGE_ID QW QX QY QZ TX TY TZ CAMERA_ID).2.db.images
        = conn.db.images ∧
    getPrior? (update_image conn IMAGE_ID QW QX QY QZ TX TY TZ CAMERA_ID).2.db.posePriors
        IMAGE_ID = some ⟨array_to_blob [TX, TY, TZ], -1,
          array_to_blob (List.replicate 9 NAN64)⟩ ∧
    getRow? (update_image conn IMAGE_ID QW QX QY QZ TX TY TZ CAMERA_ID).2.db.images
        IMAGE_ID = none := by
  have hdb : (getImagePriorSpec conn).2.db = conn.db := (gips_reads_only conn).1
  have hu : update_image conn IMAGE_ID QW QX QY QZ TX TY TZ CAMERA_ID
      = (.ok (), { (getImagePriorSpec conn).2 with
          db := { (getImagePriorSpec conn).2.db with
            images := updateWhere (getImagePriorSpec conn).2.db.images IMAGE_ID
              [("camera_id", .intV CAMERA_ID)],
            posePriors := insertOrReplacePrior (getImagePriorSpec conn).2.db.posePriors
              IMAGE_ID ⟨array_to_blob [TX, TY, TZ], -1,
                array_to_blob (List.replicate 9 NAN64)⟩ },
          trace := (getImagePriorSpec conn).2.trace
            ++ [.updateImagesCameraId IMAGE_ID, .insertPosePrior IMAGE_ID],
          poseWrites := (getImagePriorSpec conn).2.poseWrites
            ++ [⟨IMAGE_ID, QW, QX, QY, QZ, TX, TY, TZ, CAMERA_ID⟩] }) := by
    rw [update_image_eq_separate conn IMAGE_ID QW QX QY QZ TX TY TZ CAMERA_ID hres]
    rfl
  have himg : (update_image conn IMAGE_ID QW QX QY QZ TX TY TZ CAMERA_ID).2.db.images
      = conn.db.images := by
    rw [hu]
    show updateWhere (getImagePriorSpec conn).2.db.images IMAGE_ID _ = conn.db.images
    rw [hdb]
    exact updateWhere_not_found conn.db.images IMAGE_ID _ habs
  refine ⟨by rw [hu], himg, ?_, by rw [himg, habs]⟩
  rw [hu]
  exact getPrior?_insertOrReplacePrior_self _ IMAGE_ID _

/-- Witness for C10: writing image id 5 into the separate-table schema,
where only image 1 exists, raises nothing and leaves an orphan prior. -/
theorem update_image_separate_orphan_witness :
    (update_image (connect dbSeparate) 5 0 0 0 f64_one f64_tenth f64_fifth
        f64_three_tenths 2).1 = .ok () ∧
    (update_image (connect dbSeparate) 5 0 0 0 f64_one f64_tenth f64_fifth
        f64_three_tenths 2).2.db.images = (connect dbSeparate).db.images ∧
    getPrior? (update_image (connect dbSeparate) 5 0 0 0 f64_one f64_tenth f64_fifth
        f64_three_tenths 2).2.db.posePriors 5
      = some ⟨array_to_blob [f64_tenth, f64_fifth, f64_three_tenths], -1,
          array_to_blob (List.replicate 9 NAN64)⟩ ∧
    getRow? (update_image (connect dbSeparate) 5 0 0 0 f64_one f64_tenth f64_fifth
        f64_three_tenths 2).2.db.images 5 = none :=
  update_image_separate_orphan (connect dbSeparate) 5 0 0 0 f64_one f64_tenth f64_fifth
    f64_three_tenths 2 (by rfl) (by decide)

/-! ## C8: writes to missing camera or image ids -/

/-- Counterexample for C8 as stated: an `update_camera` whose camera id
denotes no existing row does not surface any storage-layer error — the
call returns normally and the database is unchanged (a silent no-op). -/
theorem missing_id_write_counterexample :
    isErrW (update_camera (connect dbCams) 1 800 600 [f64_one] 5).1 = false ∧
    (update_camera (connect dbCams) 1 800 600 [f64_one] 5).2.db = (connect dbCams).db := by
  constructor
  · rfl
  · rfl

/-- C8 (amended): a write whose target camera or image id denotes no
existing row raises no error at all: `update_camera` and an inline-strategy
`update_image` return normally with the database unchanged (the UPDATE
matches zero rows), so the caller must detect the missing id itself.  (The
separate-table `update_image` also raises nothing but still inserts the
pose-prior row; that half is C10.) -/
theorem missing_id_write_noop (conn : Conn) (model width height : Int) (params : List Nat)
    (camera_id : Int) (qs ts : List String) (IMAGE_ID : Int) (QW QX QY QZ TX TY TZ : Nat)
    (CAMERA_ID : Int) :
    ((∀ kr ∈ conn.db.cameras, kr.1 ≠ camera_id) →
      (update_camera conn model width height params camera_id).1 = .ok () ∧
      (update_camera conn model width height params camera_id).2.db = conn.db) ∧
    ((getImagePriorSpec conn).1 = .ok (.images qs ts) →
      getRow? conn.db.images IMAGE_ID = none →
      (update_image conn IMAGE_ID QW QX QY QZ TX TY TZ CAMERA_ID).1 = .ok () ∧
      (update_image conn IMAGE_ID QW QX QY QZ TX TY TZ CAMERA_ID).2.db = conn.db) := by
  constructor
  · intro hcam
    have hmap : conn.db.cameras.map (fun kr =>
        if kr.1 = camera_id then
          (kr.1, { model := model, width := width, height := height,
                   params := array_to_blob params, prior_focal_length := 1 : CameraRow })
        else kr) = conn.db.cameras := by
      have hid : ∀ kr ∈ conn.db.cameras,
          (if kr.1 = camera_id then
            ((kr.1, { model := model, width := width, height := height,
                      params := array_to_blob params,
                      prior_focal_length := 1 : CameraRow }) : Int × CameraRow)
          else kr) = id kr := fun kr hkr => if_neg (hcam kr hkr)
      rw [List.map_congr_left hid, List.map_id]
    refine ⟨rfl, ?_⟩
    show { conn.db with cameras := conn.db.cameras.map (fun kr =>
        if kr.1 = camera_id then
          (kr.1, { model := model, width := width, height := height,
                   params := array_to_blob params, prior_focal_length := 1 : CameraRow })
        else kr) } = conn.db
    rw [hmap]
  · intro hres habs
    have hdb : (getImagePriorSpec conn).2.db = conn.db := (gips_reads_only conn).1
    have hrw := update_image_eq_inline conn qs ts IMAGE_ID QW QX QY QZ TX TY TZ CAMERA_ID hres
    refine ⟨by rw [hrw], ?_⟩
    rw [hrw]
    show { (getImagePriorSpec conn).2.db with
        images := updateWhere (getImagePriorSpec conn).2.db.images IMAGE_ID
          (((qs ++ ts).zip [QW, QX, QY, QZ, TX, TY, TZ]).map
            (fun p => (p.1, Value.floatV p.2)) ++ [("camera_id", Value.intV CAMERA_ID)]) }
      = conn.db
    rw [hdb, updateWhere_not_found conn.db.images IMAGE_ID _ habs]

/-- Witness for the amended C8 at concrete missing ids. -/
theorem missing_id_write_noop_witness :
    ((update_camera (connect dbCams) 1 800 600 [f64_one] 5).1 = .ok () ∧
      (update_camera (connect dbCams) 1 800 600 [f64_one] 5).2.db = (connect dbCams).db) ∧
    ((update_image (connect dbCams) 9 f64_one 0 0 0 0 0 0 3).1 = .ok () ∧
      (update_image (connect dbCams) 9 f64_one 0 0 0 0 0 0 3).2.db = (connect dbCams).db) := by
  have h := missing_id_write_noop (connect dbCams) 1 800 600 [f64_one] 5
    ["qvec_prior_w", "qvec_prior_x", "qvec_prior_y", "qvec_prior_z"]
    ["tvec_prior_x", "tvec_prior_y", "tvec_prior_z"] 9 f64_one 0 0 0 0 0 0 3
  exact ⟨h.1 (by decide), h.2 (by rfl) (by decide)⟩

/-! ## C4: memoization of schema resolution -/

/-- One resolution step appends at most one schema probe to the trace. -/
theorem gips_probe_count (c : Conn) :
    ((getImagePriorSpec c).2.trace).count Event.probeImagesSchema
      ≤ (c.trace).count Event.probeImagesSchema + 1 := by
  cases hc : c.image_prior_spec with
  | some s =>
    rw [gips_cached c s hc]
    exact Nat.le_succ _
  | none =>
    by_cases hcond : (select_candidates c.db.imagesCols PRIOR_Q_COLUMN_CANDIDATES).length = 4 ∧
        (select_candidates c.db.imagesCols PRIOR_T_COLUMN_CANDIDATES).length = 3
    · rw [gips_inline c hc hcond]
      simp [List.count_append]
    · cases hp : c.db.posePriorsTable with
      | true =>
        rw [gips_separate c hc hcond hp]
        simp [List.count_append, List.count_cons]
      | false =>
        rw [gips_fail c hc hcond hp]
        simp [List.count_append, List.count_cons]

/-- A pose write on a connection whose memo is already populated reuses it:
the memo is unchanged and no schema probe is executed. -/
theorem applyPoseWrite_cached (c : Conn) (s : PriorSpec) (w : PoseWrite)
    (hc : c.image_prior_spec = some s) :
    (applyPoseWrite c w).2.image_prior_spec = some s ∧
    ((applyPoseWrite c w).2.trace).count Event.probeImagesSchema
      = (c.trace).count Event.probeImagesSchema := by
  have hg : getImagePriorSpec c = (.ok s, c) := gips_cached c s hc
  have hres : (getImagePriorSpec c).1 = .ok s := by rw [hg]
  cases s with
  | images qs ts =>
    have hrw := update_image_eq_inline c qs ts w.image_id w.qw w.qx w.qy w.qz w.tx w.ty
      w.tz w.camera_id hres
    constructor
    · rw [applyPoseWrite, hrw]
      show (getImagePriorSpec c).2.image_prior_spec = some (.images qs ts)
      rw [hg]
      exact hc
    · rw [applyPoseWrite, hrw]
      show ((getImagePriorSpec c).2.trace
          ++ [Event.updateImagesInline w.image_id]).count Event.probeImagesSchema
        = (c.trace).count Event.probeImagesSchema
      rw [hg]
      simp [List.count_append, List.count_cons]
  | pose_priors =>
    have hrw := update_image_eq_separate c w.image_id w.qw w.qx w.qy w.qz w.tx w.ty
      w.tz w.camera_id hres
    constructor
    · rw [applyPoseWrite, hrw]
      show (getImagePriorSpec c).2.image_prior_spec = some .pose_priors
      rw [hg]
      exact hc
    · rw [applyPoseWrite, hrw]
      show ((getImagePriorSpec c).2.trace
          ++ [Event.updateImagesCameraId w.image_id, Event.insertPosePrior w.image_id]).count
            Event.probeImagesSchema
        = (c.trace).count Event.probeImagesSchema
      rw [hg]
      simp [List.count_append, List.count_cons]

/-- Across a whole write sequence on a memoized connection, the memo stays
put and no schema probe is ever re-executed. -/
theorem runWrites_cached (c : Conn) (s : PriorSpec) (ws : List PoseWrite)
    (hc : c.image_prior_spec = some s) :
    (runWrites c ws).image_prior_spec = some s ∧
    ((runWrites c ws).trace).count Event.probeImagesSchema
      = (c.trace).count Event.probeImagesSchema := by
  induction ws generalizing c with
  | nil => exact ⟨hc, rfl⟩
  | cons w rest ih =>
    have h1 := applyPoseWrite_cached c s w hc
    have hstep : runWrites c (w :: rest) = runWrites (applyPoseWrite c w).2 rest := rfl
    rw [hstep]
    obtain ⟨ih1, ih2⟩ := ih (applyPoseWrite c w).2 h1.1
    exact ⟨ih1, ih2.trans h1.2⟩

/-- The first pose write resolves once, memoizes, and appends at most one
schema probe. -/
theorem applyPoseWrite_first (c : Conn) (s : PriorSpec) (w : PoseWrite)
    (h : (getImagePriorSpec c).1 = .ok s) :
    (applyPoseWrite c w).2.image_prior_spec = some s ∧
    ((applyPoseWrite c w).2.trace).count Event.probeImagesSchema
      ≤ (c.trace).count Event.probeImagesSchema + 1 := by
  have hcache := gips_cache_of_ok c s h
  have hcount := gips_probe_count c
  cases s with
  | images qs ts =>
    have hrw := update_image_eq_inline c qs ts w.image_id w.qw w.qx w.qy w.qz w.tx w.ty
      w.tz w.camera_id h
    constructor
    · rw [applyPoseWrite, hrw]
      exact hcache
    · rw [applyPoseWrite, hrw]
      show ((getImagePriorSpec c).2.trace
          ++ [Event.updateImagesInline w.image_id]).count Event.probeImagesSchema
        ≤ (c.trace).count Event.probeImagesSchema + 1
      rw [List.count_append]
      simp only [List.count_cons, List.count_nil]
      simp
      omega
  | pose_priors =>
    have hrw := update_image_eq_separate c w.image_id w.qw w.qx w.qy w.qz w.tx w.ty
      w.tz w.camera_id h
    constructor
    · rw [applyPoseWrite, hrw]
      exact hcache
    · rw [applyPoseWrite, hrw]
      show ((getImagePriorSpec c).2.trace
          ++ [Event.updateImagesCameraId w.image_id, Event.insertPosePrior w.image_id]).count
            Event.probeImagesSchema
        ≤ (c.trace).count Event.probeImagesSchema + 1
      rw [List.count_append]
      simp only [List.count_cons, List.count_nil]
      simp
      omega

/-- C4: on a connection with an empty statement trace whose schema
resolves, an arbitrary sequence of pose writes probes the images schema at
most once (the memoized result is reused by every later write), the
connection still resolves to the same spec afterwards, and resolution
itself mutates no database state and performs no pose write. -/
theorem schema_resolution_memoized (conn : Conn) (s : PriorSpec) (ws : List PoseWrite)
    (htr : conn.trace = [])
    (hres : (getImagePriorSpec conn).1 = .ok s) :
    ((runWrites conn ws).trace).count Event.probeImagesSchema ≤ 1 ∧
    (getImagePriorSpec (runWrites conn ws)).1 = .ok s ∧
    (getImagePriorSpec conn).2.db = conn.db ∧
    (getImagePriorSpec conn).2.poseWrites = conn.poseWrites := by
  cases ws with
  | nil =>
    refine ⟨?_, hres, (gips_reads_only conn).1, (gips_reads_only conn).2.1⟩
    show (conn.trace).count Event.probeImagesSchema ≤ 1
    rw [htr]
    simp
  | cons w rest =>
    obtain ⟨hcache1, hcount1⟩ := applyPoseWrite_first conn s w hres
    obtain ⟨hcache2, hcount2⟩ := runWrites_cached (applyPoseWrite conn w).2 s rest hcache1
    have hstep : runWrites conn (w :: rest) = runWrites (applyPoseWrite conn w).2 rest := rfl
    rw [hstep]
    refine ⟨?_, ?_, (gips_reads_only conn).1, (gips_reads_only conn).2.1⟩
    · rw [hcount2]
      have h0 : (conn.trace).count Event.probeImagesSchema = 0 := by rw [htr]; rfl
      omega
    · rw [gips_cached _ s hcache2]

/-- Witness for C4: two consecutive writes on the separate-table schema
probe the images schema exactly once. -/
theorem schema_resolution_memoized_witness :
    ((runWrites (connect dbSeparate)
        [⟨1, 0, 0, 0, f64_one, 0, 0, 0, 2⟩,
         ⟨1, 0, 0, 0, f64_one, f64_tenth, f64_fifth, f64_three_tenths, 2⟩]).trace).count
      Event.probeImagesSchema ≤ 1 ∧
    (getImagePriorSpec (runWrites (connect dbSeparate)
        [⟨1, 0, 0, 0, f64_one, 0, 0, 0, 2⟩,
         ⟨1, 0, 0, 0, f64_one, f64_tenth, f64_fifth, f64_three_tenths, 2⟩])).1
      = .ok .pose_priors ∧
    (getImagePriorSpec (connect dbSeparate)).2.db = (connect dbSeparate).db ∧
    (getImagePriorSpec (connect dbSeparate)).2.poseWrites
      = (connect dbSeparate).poseWrites :=
  schema_resolution_memoized (connect dbSeparate) .pose_priors
    [⟨1, 0, 0, 0, f64_one, 0, 0, 0, 2⟩,
     ⟨1, 0, 0, 0, f64_one, f64_tenth, f64_fifth, f64_three_tenths, 2⟩] rfl (by rfl)

/-! ## C9: image-list ingestion -/

/-- A pose write on a resolving connection succeeds, records exactly one
write, and leaves the connection resolving to the same spec. -/
theorem applyPoseWrite_ok (c : Conn) (s : PriorSpec) (w : PoseWrite)
    (h : (getImagePriorSpec c).1 = .ok s) :
    (applyPoseWrite c w).1 = .ok () ∧
    (applyPoseWrite c w).2.poseWrites = c.poseWrites ++ [w] ∧
    (getImagePriorSpec (applyPoseWrite c w).2).1 = .ok s := by
  have hcache := gips_cache_of_ok c s h
  have hpw : (getImagePriorSpec c).2.poseWrites = c.poseWrites := (gips_reads_only c).2.1
  cases s with
  | images qs ts =>
    have hrw := update_image_eq_inline c qs ts w.image_id w.qw w.qx w.qy w.qz w.tx w.ty
      w.tz w.camera_id h
    refine ⟨by rw [applyPoseWrite, hrw], ?_, ?_⟩
    · rw [applyPoseWrite, hrw]
      show (getImagePriorSpec c).2.poseWrites
        ++ [⟨w.image_id, w.qw, w.qx, w.qy, w.qz, w.tx, w.ty, w.tz, w.camera_id⟩]
        = c.poseWrites ++ [w]
      rw [hpw]
    · rw [applyPoseWrite, hrw]
      have : (apply_inline_write (getImagePriorSpec c).2 qs ts w.image_id w.qw w.qx w.qy
          w.qz w.tx w.ty w.tz w.camera_id).image_prior_spec = some (.images qs ts) := hcache
      rw [gips_cached _ _ this]
  | pose_priors =>
    have hrw := update_image_eq_separate c w.image_id w.qw w.qx w.qy w.qz w.tx w.ty
      w.tz w.camera_id h
    refine ⟨by rw [applyPoseWrite, hrw], ?_, ?_⟩
    · rw [applyPoseWrite, hrw]
      show (getImagePriorSpec c).2.poseWrites
        ++ [⟨w.image_id, w.qw, w.qx, w.qy, w.qz, w.tx, w.ty, w.tz, w.camera_id⟩]
        = c.poseWrites ++ [w]
      rw [hpw]
    · rw [applyPoseWrite, hrw]
      have : (apply_separate_write (getImagePriorSpec c).2 w.image_id w.qw w.qx w.qy
          w.qz w.tx w.ty w.tz w.camera_id).image_prior_spec = some .pose_priors := hcache
      rw [gips_cached _ _ this]

/-- The ingestion loop on a resolving connection: every run succeeds and
appends exactly the parses of the lines, in order. -/
theorem imgTodatabase_go_ok (lines : List (List String)) (c : Conn) (s : PriorSpec)
    (hres : (getImagePriorSpec c).1 = .ok s)
    (hlines : ∀ l ∈ lines, l = [] ∨ (parseImageLine l).isSome) :
    (imgTodatabase_go lines c).1 = .ok () ∧
    (imgTodatabase_go lines c).2.poseWrites
      = c.poseWrites ++ lines.filterMap parseImageLine := by
  induction lines generalizing c with
  | nil => exact ⟨rfl, by simp [imgTodatabase_go]⟩
  | cons l rest ih =>
    have hrest : ∀ l' ∈ rest, l' = [] ∨ (parseImageLine l').isSome :=
      fun l' hl' => hlines l' (List.mem_cons_of_mem l hl')
    rcases hlines l (List.mem_cons_self l rest) with hl | hl
    · subst hl
      have hstep : imgTodatabase_go ([] :: rest) c = imgTodatabase_go rest c := rfl
      have hnone : parseImageLine [] = none := rfl
      rw [hstep, List.filterMap_cons_none hnone]
      exact ih c hres hrest
    · obtain ⟨w, hw⟩ := Option.isSome_iff_exists.mp hl
      have hlen : l.length > 0 := by
        cases l with
        | nil => exact absurd hw (by simp [parseImageLine, parseField])
        | cons t ts => simp
      obtain ⟨ho, hpw, hres'⟩ := applyPoseWrite_ok c s w hres
      have hstep : imgTodatabase_go (l :: rest) c
          = imgTodatabase_go rest (applyPoseWrite c w).2 := by
        rcases hap : applyPoseWrite c w with ⟨r, c1⟩
        rw [hap] at ho
        simp only at ho
        subst ho
        simp [imgTodatabase_go, hlen, hw, hap]
      rw [hstep, List.filterMap_cons_some hw]
      obtain ⟨g1, g2⟩ := ih (applyPoseWrite c w).2 hres' hrest
      refine ⟨g1, ?_⟩
      rw [g2, hpw]
      simp

/-- With only empty or parsable lines, the parses are in bijection with the
non-empty lines. -/
theorem filterMap_parse_length (lines : List (List String))
    (hlines : ∀ l ∈ lines, l = [] ∨ (parseImageLine l).isSome) :
    (lines.filterMap parseImageLine).length
      = (lines.filter (fun l => !l.isEmpty)).length := by
  induction lines with
  | nil => rfl
  | cons l rest ih =>
    have hrest : ∀ l' ∈ rest, l' = [] ∨ (parseImageLine l').isSome :=
      fun l' hl' => hlines l' (List.mem_cons_of_mem l hl')
    rcases hlines l (List.mem_cons_self l rest) with hl | hl
    · subst hl
      have hnone : parseImageLine [] = none := rfl
      rw [List.filterMap_cons_none hnone, List.filter_cons_of_neg (by simp)]
      exact ih hrest
    · obtain ⟨w, hw⟩ := Option.isSome_iff_exists.mp hl
      have hne : l.isEmpty = false := by
        cases l with
        | nil => exact absurd hw (by simp [parseImageLine, parseField])
        | cons t ts => rfl
      rw [List.filterMap_cons_some hw, List.filter_cons_of_pos (by simp [hne]),
        List.length_cons, List.length_cons, ih hrest]

/-- Fields beyond the ninth are never inspected by the line parser. -/
theorem parseImageLine_trailing (toks9 extra : List String) (h9 : toks9.length = 9) :
    parseImageLine (toks9 ++ extra) = parseImageLine toks9 := by
  have hf : ∀ (α : Type) (i : Nat) (p : String → Option α), i < 9 →
      parseField (toks9 ++ extra) i p = parseField toks9 i p := by
    intro α i p hi
    rw [parseField, parseField, List.get?_append (by omega)]
  have h0 := hf Int 0 pyInt? (by omega)
  have h1 := hf Nat 1 pyFloat? (by omega)
  have h2 := hf Nat 2 pyFloat? (by omega)
  have h3 := hf Nat 3 pyFloat? (by omega)
  have h4 := hf Nat 4 pyFloat? (by omega)
  have h5 := hf Nat 5 pyFloat? (by omega)
  have h6 := hf Nat 6 pyFloat? (by omega)
  have h7 := hf Nat 7 pyFloat? (by omega)
  have h8 := hf Int 8 pyInt? (by omega)
  simp only [parseImageLine, h0, h1, h2, h3, h4, h5, h6, h7, h8]

/-- Counterexample for C9 as stated: on a COLMAP-style comment line the
driver does not skip the line — `int("#")` raises, aborting the pass with
a parse error before any write. -/
theorem imgTodatabase_comment_counterexample :
    isErrW (imgTodatabase [["#", "IMAGE_ID,", "QW,", "QX,", "QY,", "QZ,", "TX,", "TY,",
        "TZ,", "CAMERA_ID,", "NAME"]] dbModern).1 = true ∧
    (imgTodatabase [["#", "IMAGE_ID,", "QW,", "QX,", "QY,", "QZ,", "TX,", "TY,",
        "TZ,", "CAMERA_ID,", "NAME"]] dbModern).2.poseWrites = [] := by
  exact ⟨rfl, rfl⟩

/-- C9 (amended): on a database whose schema resolves, ingestion performs
exactly one pose write per non-empty line, parsing the first nine fields of
each line as image_id qw qx qy qz tx ty tz camera_id and ignoring any
trailing name field; empty lines produce no write and do not abort the
pass.  Comment lines are not recognized: a line whose fields do not parse
aborts the pass (see the counterexample), so the amended guarantee assumes
every non-empty line parses. -/
theorem imgTodatabase_one_write_per_line (lines : List (List String)) (db : DB)
    (s : PriorSpec) (toks9 extra : List String)
    (hres : (getImagePriorSpec (connect db)).1 = .ok s)
    (hlines : ∀ l ∈ lines, l = [] ∨ (parseImageLine l).isSome)
    (h9 : toks9.length = 9) :
    (imgTodatabase lines db).1 = .ok () ∧
    (imgTodatabase lines db).2.poseWrites = lines.filterMap parseImageLine ∧
    (lines.filterMap parseImageLine).length
      = (lines.filter (fun l => !l.isEmpty)).length ∧
    parseImageLine (toks9 ++ extra) = parseImageLine toks9 := by
  obtain ⟨h1, h2⟩ := imgTodatabase_go_ok lines (connect db) s hres hlines
  refine ⟨h1, ?_, filterMap_parse_length lines hlines, parseImageLine_trailing toks9 extra h9⟩
  rw [imgTodatabase, h2]
  rfl

/-- Witness for C9 on a three-line file: a full line with a name field, an
empty line, and a nine-field line — two writes, one per non-empty line. -/
theorem imgTodatabase_one_write_per_line_witness :
    (imgTodatabase [["1", "1", "0", "0", "0", "0.5", "1", "1", "2", "a.png"], [],
        ["2", "1", "0", "0", "0", "1", "1", "1", "2"]] dbModern).1 = .ok () ∧
    (imgTodatabase [["1", "1", "0", "0", "0", "0.5", "1", "1", "2", "a.png"], [],
        ["2", "1", "0", "0", "0", "1", "1", "1", "2"]] dbModern).2.poseWrites
      = [["1", "1", "0", "0", "0", "0.5", "1", "1", "2", "a.png"], [],
         ["2", "1", "0", "0", "0", "1", "1", "1", "2"]].filterMap parseImageLine ∧
    ([["1", "1", "0", "0", "0", "0.5", "1", "1", "2", "a.png"], [],
        ["2", "1", "0", "0", "0", "1", "1", "1", "2"]].filterMap parseImageLine).length
      = ([["1", "1", "0", "0", "0", "0.5", "1", "1", "2", "a.png"], [],
          ["2", "1", "0", "0", "0", "1", "1", "1", "2"]].filter (fun l => !l.isEmpty)).length ∧
    parseImageLine (["1", "1", "0", "0", "0", "0.5", "1", "1", "2"] ++ ["a.png"])
      = parseImageLine ["1", "1", "0", "0", "0", "0.5", "1", "1", "2"] :=
  imgTodatabase_one_write_per_line
    [["1", "1", "0", "0", "0", "0.5", "1", "1", "2", "a.png"], [],
     ["2", "1", "0", "0", "0", "1", "1", "1", "2"]] dbModern
    (.images ["qvec_prior_w", "qvec_prior_x", "qvec_prior_y", "qvec_prior_z"]
      ["tvec_prior_x", "tvec_prior_y", "tvec_prior_z"])
    ["1", "1", "0", "0", "0", "0.5", "1", "1", "2"] ["a.png"]
    (by rfl) (by decide) (by rfl)

end ColmapInject